import Mathlib

/-!
Verification development for the `my-question-bank` migration scripts.

The Python sources under `scripts/` are shallowly embedded as executable Lean
definitions:

* `scripts/convert_backup.py` — chapter parsing/resolution, image extraction
  and the per-question conversion step of the question-bank converter;
* `scripts/bulk_import_exam_papers.py` — year parsing, the planning pass
  (`collect_records`), the entity-upsert phase with its dry-run placeholder
  ids, and the per-record live import loop with its rollback logic.

Modelling conventions, fixed once here:

* Python `dict`s are association lists (`List (key × value)`) with
  insertion-order semantics: `ainsert` overwrites in place like a dict
  assignment, `alookup` finds the unique entry for a key.
* Python `set`s are deduplicated lists in first-insertion order (`sinsert`).
* JSON scalar fields are modelled as `Option String` / `Option Int`; Python
  truthiness of such a field is `strTruthy` / `optIntTruthy` (absent, empty
  string and integer zero are falsy).
* The local filesystem is a list of existing file paths; `Path` joining is
  string concatenation with a slash separator; `Path(...).name` is the last
  non-empty slash-separated component (`pathName`).
* The remote backend (Supabase) is a `Backend` state (uploaded storage paths,
  exam-paper rows, facet-link rows); fallible remote calls succeed or fail
  according to an explicit outcome oracle; every attempted remote operation is
  also recorded in an `Op` trace so that side-effect-freedom is a statement
  about the trace.
* Python `int(str(x).strip())` is modelled as trimming followed by an optional
  sign and a non-empty run of decimal digits (`parse_year`); exotic accepted
  forms (digit-group underscores, non-ASCII digits) are not modelled.
-/

/-! ## Generic helpers: dicts, sets, truthiness, paths -/

/-- Lookup in an insertion-ordered association list (Python `dict.get`). -/
def alookup {κ α : Type} [DecidableEq κ] (m : List (κ × α)) (k : κ) :
    Option α :=
  match m with
  | [] => none
  | p :: rest => if p.1 = k then some p.2 else alookup rest k

/-- Dict assignment `m[k] = v`: overwrite in place, else append. -/
def ainsert {κ α : Type} [DecidableEq κ] (m : List (κ × α)) (k : κ) (v : α) :
    List (κ × α) :=
  match m with
  | [] => [(k, v)]
  | p :: rest => if p.1 = k then (k, v) :: rest else p :: ainsert rest k v

/-- `defaultdict` update: apply `f` to the current value of `k` (default
`dflt` when the key is absent). -/
def aupdateF {κ α : Type} [DecidableEq κ] (m : List (κ × α)) (k : κ)
    (dflt : α) (f : α → α) : List (κ × α) :=
  match m with
  | [] => [(k, f dflt)]
  | p :: rest => if p.1 = k then (p.1, f p.2) :: rest else p :: aupdateF rest k dflt f

/-- Python `set.add` on a set modelled as a dedup list. -/
def sinsert (l : List String) (x : String) : List String :=
  if l.contains x then l else l ++ [x]

/-- Truthiness of an optional string field (Python: absent and `""` falsy). -/
def strTruthy : Option String → Bool
  | none => false
  | some s => !(s == "")

/-- Truthiness of an optional integer field (Python: absent and `0` falsy). -/
def optIntTruthy : Option Int → Bool
  | none => false
  | some n => !(n == 0)

/-- Split a character list at the first occurrence of `sep`; `none` when
`sep` does not occur (Python `"sep" in s` plus `s.split(sep, 1)`). -/
def splitFirstAux (sep : Char) : List Char → Option (List Char × List Char)
  | [] => none
  | c :: cs =>
    if c = sep then some ([], cs)
    else
      match splitFirstAux sep cs with
      | none => none
      | some p => some (c :: p.1, p.2)

/-- Python `str.lstrip("/")`. -/
def lstripSlash (s : String) : String :=
  String.mk (s.toList.dropWhile (fun c => c == '/'))

/-- Python `str.strip()` with no argument: drop leading and trailing
whitespace (structural-recursion implementation, so that concrete inputs
evaluate inside the kernel). -/
def strTrim (s : String) : String :=
  String.mk
    (((s.toList.dropWhile Char.isWhitespace).reverse.dropWhile
        Char.isWhitespace).reverse)

/-- Split a character list on every occurrence of `sep` (Python
`s.split(sep)` semantics: always at least one component). -/
def splitChar (sep : Char) : List Char → List (List Char)
  | [] => [[]]
  | c :: cs =>
    let r := splitChar sep cs
    if c = sep then [] :: r
    else
      match r with
      | [] => [[c]]
      | h :: t => (c :: h) :: t

/-- `Path(p).name`: the last non-empty slash-separated component of a path
string (empty when there is none). -/
def pathName (s : String) : String :=
  match ((splitChar '/' s.toList).filter (fun t => !(t.isEmpty))).getLast? with
  | some t => String.mk t
  | none => ""

/-! ## `convert_backup.py`: chapter parsing and resolution -/

/-- `parse_chapter_name` (convert_backup.py, lines 207-220): split the raw
chapter string at the first `@` into `(parent, sub)`, stripping whitespace
from both parts; a string without `@` is the parent with no sub-chapter. -/
def parse_chapter_name (raw : String) : String × Option String :=
  match splitFirstAux '@' raw.toList with
  | none => (raw, none)
  | some p => (strTrim (String.mk p.1), some (strTrim (String.mk p.2)))

/-- `get_chapter_key` (convert_backup.py, lines 223-230): the lookup key is
`parent@sub` when the sub-chapter name is truthy, else `parent`. -/
def get_chapter_key (parent : String) (sub : Option String) : String :=
  match sub with
  | some s => if s = "" then parent else parent ++ "@" ++ s
  | none => parent

/-- Chapter-id resolution as inlined in `build_output_item`
(convert_backup.py, lines 699-714): try the full key, then the sub-chapter
name alone when a truthy sub-chapter is present, then the parent name alone
when no truthy sub-chapter is present. -/
def resolve_chapter_id (chapter_map : List (String × Int)) (raw : String) :
    Option Int :=
  let pc := parse_chapter_name raw
  let fullKey := get_chapter_key pc.1 pc.2
  match alookup chapter_map fullKey with
  | some i => some i
  | none =>
    match pc.2 with
    | some s =>
      if s = "" then alookup chapter_map pc.1
      else
        match alookup chapter_map s with
        | some i => some i
        | none => none
    | none => alookup chapter_map pc.1

/-- Resolution order exactly as the specification words it (§4.3): key is
`parent@sub` when a sub exists, else `parent`; on a miss, fall back to the
sub-chapter name alone when a sub exists, else to the parent name alone. -/
def resolve_chapter_id_specOrder (chapter_map : List (String × Int))
    (raw : String) : Option Int :=
  let pc := parse_chapter_name raw
  let subExists : Bool :=
    match pc.2 with
    | none => false
    | some s => !(s == "")
  let key := if subExists then pc.1 ++ "@" ++ (pc.2.getD "") else pc.1
  match alookup chapter_map key with
  | some i => some i
  | none =>
    if subExists then alookup chapter_map (pc.2.getD "")
    else alookup chapter_map pc.1

/-! ## `convert_backup.py`: error reporting, image extraction, conversion -/

/-- `ErrorType` enum (convert_backup.py, lines 86-94). -/
inductive ErrorType where
  | missing_image
  | chapter_mapping_failed
  | invalid_data_format
  | database_error
  | upload_failed
  | file_not_found
  | validation_error
deriving DecidableEq

/-- One `ConversionError` as far as the claims need it: source id and kind
(message/context/timestamp strings are presentation only). -/
structure ConvErr where
  source_id : String
  error_type : ErrorType
deriving DecidableEq

/-- One entry of a question's `blocks[]` array: its `type` tag and the path
component of `block.data.file.url` (empty string when the url is absent;
url-parsing is input decoding and happens before the embedding). -/
structure Block where
  btype : String
  urlPath : String
deriving DecidableEq

/-- `find_image_path` (convert_backup.py, lines 639-648): prefer
`root/relative_path`, fall back to `root/filename`, else `None`.  The local
filesystem is the list `fs` of existing paths. -/
def find_image_path (fs : List String) (relPath : Option String)
    (filename : String) (root : String) : Option String :=
  match relPath with
  | some rp =>
    if fs.contains (root ++ "/" ++ rp) then some (root ++ "/" ++ rp)
    else if fs.contains (root ++ "/" ++ filename) then
      some (root ++ "/" ++ filename)
    else none
  | none =>
    if fs.contains (root ++ "/" ++ filename) then
      some (root ++ "/" ++ filename)
    else none

/-- `extract_images` (convert_backup.py, lines 651-679): walk the blocks of
the given kind; skip blocks with no filename; on the first unresolvable
image return `(none, [fallback])` immediately (the record is incomplete),
otherwise collect the found paths with an empty missing list. -/
def extract_images (fs : List String) (kind : String) (root : String) :
    List Block → Option (List String) × List String
  | [] => (some [], [])
  | b :: bs =>
    if b.btype = kind then
      let filename := pathName b.urlPath
      if filename = "" then extract_images fs kind root bs
      else
        let rel := lstripSlash b.urlPath
        match find_image_path fs (some rel) filename root with
        | some found =>
          match extract_images fs kind root bs with
          | (some rest, ml) => (some (found :: rest), ml)
          | (none, ml) => (none, ml)
        | none => (none, [rel])
    else extract_images fs kind root bs

/-- A legacy question object, restricted to the fields `build_output_item`
reads (properties flattened, JSON scalars as optional strings/ints). -/
structure QuestionObj where
  srcId : Option String
  subject : Option String
  exam : Option String
  chapter : Option String
  mark : Option Int
  pYear : Option String
  pPaper : Option String
  pSeason : Option String
  pTimezone : Option String
  blocks : List Block
  difficulty : Option Int
  calculator : Option Bool
deriving DecidableEq

/-- A converted output item (convert_backup.py, lines 768-785). -/
structure OutputItem where
  chapterId : Option Int
  chapterName : Option String
  marks : Option Int
  difficulty : Int
  calculator : Bool
  questionImages : List String
  answerImages : List String
  metaYear : Option String
  metaPaper : Option String
  metaSeason : Option String
  metaTimezone : Option String
  metaExam : Option String
  metaSubject : Option String
  metaSourceId : Option String
deriving DecidableEq

/-- `obj.get("_id", "unknown")` for error reporting. -/
def objSourceId (obj : QuestionObj) : String :=
  obj.srcId.getD "unknown"

/-- `build_output_item` (convert_backup.py, lines 682-786).  Returns the
optional output item, the record's `missing_local` list, and the
`ConversionError`s appended to the error report while processing it.
Mirrors the source exactly: a missing image returns `none` immediately with
one `missing_image` error; a chapter-mapping failure (non-empty map, chapter
present, no id resolved) appends a `chapter:<name>` marker to
`missing_local` and one `chapter_mapping_failed` error, after which the
final line returns the item only when `missing_local` is empty. -/
def build_output_item (fs : List String) (root : String)
    (chapter_map : List (String × Int)) (obj : QuestionObj) :
    Option OutputItem × List String × List ConvErr :=
  let chapterId : Option Int :=
    match obj.chapter with
    | none => none
    | some raw => resolve_chapter_id chapter_map raw
  let qres := extract_images fs "image" root obj.blocks
  let ares := extract_images fs "imageAnswer" root obj.blocks
  let missingLocal := qres.2 ++ ares.2
  match qres.1, ares.1 with
  | some qimgs, some aimgs =>
    let chapterFailed : Bool :=
      !chapter_map.isEmpty && obj.chapter.isSome && chapterId.isNone
    let ml2 :=
      if chapterFailed then
        missingLocal ++ ["chapter:" ++ obj.chapter.getD ""]
      else missingLocal
    let errs :=
      if chapterFailed then
        [ConvErr.mk (objSourceId obj) ErrorType.chapter_mapping_failed]
      else []
    let item : OutputItem :=
      { chapterId := chapterId
        chapterName := obj.chapter
        marks := obj.mark
        difficulty :=
          match obj.difficulty with
          | none => 1
          | some d => if d = 0 then 1 else d
        calculator := obj.calculator.getD true
        questionImages := qimgs
        answerImages := aimgs
        metaYear := obj.pYear
        metaPaper := obj.pPaper
        metaSeason := obj.pSeason
        metaTimezone := obj.pTimezone
        metaExam := obj.exam
        metaSubject := obj.subject
        metaSourceId := obj.srcId }
    (if ml2 = [] then some item else none, ml2, errs)
  | _, _ =>
    (none, missingLocal,
      [ConvErr.mk (objSourceId obj) ErrorType.missing_image])

/-- The mutable conversion state of `convert_subject`: collected results,
the `missing_images` set (as an accumulating list), the error report's
error list and its three counters. -/
structure ConvAcc where
  results : List OutputItem
  missingImages : List String
  errors : List ConvErr
  processed : Nat
  successful : Nat
  failed : Nat
deriving DecidableEq

/-- The empty conversion state. -/
def ConvAcc.empty : ConvAcc :=
  { results := [], missingImages := [], errors := [], processed := 0
    successful := 0, failed := 0 }

/-- One iteration of the `convert_subject` loop body (convert_backup.py,
lines 839-868) for a record that already passed the subject filter: build
the item, bump `total_processed`, record errors (the error report's
`failed` counter counts `add_error` calls), then either drop the record
(`missing_local` non-empty) or append the item and count a success. -/
def convert_step (fs : List String) (root : String)
    (chapter_map : List (String × Int)) (acc : ConvAcc) (obj : QuestionObj) :
    ConvAcc :=
  let r := build_output_item fs root chapter_map obj
  let base : ConvAcc :=
    { acc with
      processed := acc.processed + 1
      failed := acc.failed + r.2.2.length
      errors := acc.errors ++ r.2.2
      missingImages := acc.missingImages ++ r.2.1 }
  if r.2.1 = [] then
    match r.1 with
    | some it =>
      { base with
        results := base.results ++ [it]
        successful := base.successful + 1 }
    | none => base
  else base

/-- The `convert_subject` scan (convert_backup.py, lines 829-868): stop when
the optional item cap is reached, skip records of other subjects, otherwise
run `convert_step`. -/
def convert_loop (fs : List String) (root : String)
    (chapter_map : List (String × Int)) (sid : String)
    (maxItems : Option Nat) (acc : ConvAcc) :
    List QuestionObj → ConvAcc
  | [] => acc
  | obj :: rest =>
    let capped : Bool :=
      match maxItems with
      | some m => decide (acc.results.length ≥ m)
      | none => false
    if capped then acc
    else if obj.subject = some sid then
      convert_loop fs root chapter_map sid maxItems
        (convert_step fs root chapter_map acc obj) rest
    else convert_loop fs root chapter_map sid maxItems acc rest

/-! ## `bulk_import_exam_papers.py`: year parsing and the planning pass -/

/-- Numeric value of a decimal digit character. -/
def digitVal (c : Char) : Nat := c.toNat - 48

/-- Value of a non-empty digit run. -/
def digitsToNat (ds : List Char) : Nat :=
  ds.foldl (fun a c => a * 10 + digitVal c) 0

/-- `parse_year` (bulk_import_exam_papers.py, lines 48-52):
`int(str(value).strip())`, `None` on failure.  Modelled as trim, optional
sign, then a non-empty run of ASCII digits. -/
def parse_year (s : String) : Option Int :=
  match (strTrim s).toList with
  | [] => none
  | c :: cs =>
    if c = '-' then
      if !cs.isEmpty && cs.all Char.isDigit then
        some (-(digitsToNat cs : Int))
      else none
    else if c = '+' then
      if !cs.isEmpty && cs.all Char.isDigit then
        some ((digitsToNat cs : Int))
      else none
    else
      if (c :: cs).all Char.isDigit then
        some ((digitsToNat (c :: cs) : Int))
      else none

/-- `LegacyExam` dataclass (lines 56-59). -/
structure LegacyExam where
  id : String
  name : String
deriving DecidableEq

/-- `LegacySubject` dataclass (lines 62-66). -/
structure LegacySubject where
  id : String
  name : String
  exam_id : String
deriving DecidableEq

/-- One row of the exams / subjects reference NDJSON files, restricted to
the fields the loaders read. -/
structure RefRow where
  rid : Option String
  name : Option String
  exam : Option String
deriving DecidableEq

/-- The exams-loading loop of `main` (lines 222-225): keep rows whose `_id`
and `name` are truthy, keyed by `_id` with dict-overwrite semantics. -/
def load_exams (rows : List RefRow) : List (String × LegacyExam) :=
  rows.foldl
    (fun m r =>
      if strTruthy r.rid && strTruthy r.name then
        ainsert m (r.rid.getD "") (LegacyExam.mk (r.rid.getD "") (r.name.getD ""))
      else m)
    []

/-- The subjects-loading loop of `main` (lines 227-234): like `load_exams`,
with `exam_id` defaulting to `""` when the `exam` field is falsy. -/
def load_subjects (rows : List RefRow) : List (String × LegacySubject) :=
  rows.foldl
    (fun m r =>
      if strTruthy r.rid && strTruthy r.name then
        ainsert m (r.rid.getD "")
          (LegacySubject.mk (r.rid.getD "") (r.name.getD "")
            (if strTruthy r.exam then r.exam.getD "" else ""))
      else m)
    []

/-- One row of the questions NDJSON stream, restricted to the fields
`collect_records` reads (properties flattened; `question.url` and
`answer.url` pre-extracted). -/
structure RawRow where
  questionBank : Option Int
  subject : Option String
  exam : Option String
  pPaper : Option String
  pSeason : Option String
  pYear : Option String
  pTimezone : Option String
  questionUrl : Option String
  answerUrl : Option String
deriving DecidableEq

/-- The `Record` dataclass (lines 69-79), minus the opaque `raw` payload
(which is only echoed back into error entries). -/
structure Record where
  subject_old : String
  exam_old : String
  paper : String
  season : String
  year : Int
  timezone : Option String
  question_url : Option String
  answer_url : Option String
deriving DecidableEq

/-- The accumulating state of `collect_records` (lines 138-143): the record
list, the early-error list (reason paired with the offending row), and the
three requirement structures (sets as dedup lists). -/
structure CollectAcc where
  records : List Record
  errors : List (String × RawRow)
  requiredExams : List String
  requiredSubjects : List (String × List String)
  requiredTagValues : List (String × List (String × List String))
deriving DecidableEq

/-- The empty planning state. -/
def CollectAcc.empty : CollectAcc :=
  { records := [], errors := [], requiredExams := []
    requiredSubjects := [], requiredTagValues := [] }

/-- The required-field validation of `collect_records` (line 159): subject,
exam, paper, season truthy, year parses, question url truthy. -/
def record_fields_ok (row : RawRow) : Bool :=
  strTruthy row.subject && strTruthy row.exam && strTruthy row.pPaper &&
    strTruthy row.pSeason &&
    (match row.pYear with
     | some y => (parse_year y).isSome
     | none => false) &&
    strTruthy row.questionUrl

/-- Add one value to `required_tag_values[subjId][tag]` (lines 171-175). -/
def addTagValue (m : List (String × List (String × List String)))
    (subjId tag v : String) : List (String × List (String × List String)) :=
  aupdateF m subjId [] (fun tm => aupdateF tm tag [] (fun vs => sinsert vs v))

/-- The `Record` constructed for a promoted row (lines 177-189). -/
def mkRecord (subjObj : LegacySubject) (examObj : LegacyExam) (row : RawRow) :
    Record :=
  { subject_old := subjObj.id
    exam_old := examObj.id
    paper := row.pPaper.getD ""
    season := row.pSeason.getD ""
    year := (match row.pYear with
             | some y => (parse_year y).getD 0
             | none => 0)
    timezone := row.pTimezone
    question_url := row.questionUrl
    answer_url := row.answerUrl }

/-- One iteration of the `collect_records` loop (lines 145-189): skip rows
of other question banks, reject field-invalid rows with one
`missing fields/question url` error, reject rows whose legacy subject/exam
lookup misses with one `legacy subject/exam not found` error, and otherwise
accumulate requirements (exam name, subject name per exam, `paper`/`season`
tag values, the raw `str(year)` value, `str(tz)` only when present) and
append the promoted `Record`. -/
def collect_step (exams : List (String × LegacyExam))
    (subjects : List (String × LegacySubject)) (acc : CollectAcc)
    (row : RawRow) : CollectAcc :=
  if row.questionBank ≠ some 2 then acc
  else if !record_fields_ok row then
    { acc with errors := acc.errors ++ [("missing fields/question url", row)] }
  else
    match alookup subjects (row.subject.getD ""),
        alookup exams (row.exam.getD "") with
    | some subjObj, some examObj =>
      let rtv1 := addTagValue acc.requiredTagValues subjObj.id "paper"
        (row.pPaper.getD "")
      let rtv2 := addTagValue rtv1 subjObj.id "season" (row.pSeason.getD "")
      let rtv3 := addTagValue rtv2 subjObj.id "year" (row.pYear.getD "")
      let rtv4 :=
        match row.pTimezone with
        | some tz => addTagValue rtv3 subjObj.id "time zone" tz
        | none => rtv3
      { acc with
        requiredExams := sinsert acc.requiredExams examObj.name
        requiredSubjects :=
          aupdateF acc.requiredSubjects examObj.name []
            (fun l => sinsert l subjObj.name)
        requiredTagValues := rtv4
        records := acc.records ++ [mkRecord subjObj examObj row] }
    | _, _ =>
      { acc with
        errors := acc.errors ++ [("legacy subject/exam not found", row)] }

/-- `collect_records` (lines 138-191): fold the step over the question
stream. -/
def collect_records (exams : List (String × LegacyExam))
    (subjects : List (String × LegacySubject)) (rows : List RawRow) :
    CollectAcc :=
  rows.foldl (collect_step exams subjects) CollectAcc.empty

/-- The year key the importer uses against the tag-value cache
(`str(rec.year)`, line 349 of `main`). -/
def importer_year_key (rec : Record) : String :=
  toString rec.year

/-! ## `bulk_import_exam_papers.py`: backend state, entity upsert layer -/

/-- One row of the `exam_papers` table (insert payload of `main`,
lines 443-458, plus the returned `id`). -/
structure PaperRow where
  id : Int
  subject_id : Int
  year : Int
  season : String
  paper_code : String
  paper_label : String
  time_zone : Option String
  question_paper_path : String
  mark_scheme_path : Option String
deriving DecidableEq

/-- Remote backend state touched by the importer: the storage bucket's
uploaded paths, the `exam_papers` rows, and the `exam_paper_tag_values`
link rows. -/
structure Backend where
  storage : List String
  papers : List PaperRow
  links : List (Int × Int)
deriving DecidableEq

/-- One attempted remote operation; the run's trace of these models the
script's outward-facing backend traffic. -/
inductive Op where
  | selectDup (subj : Int) (year : Int) (season : String) (paper : String)
  | upload (path : String)
  | removeObjs (paths : List String)
  | insertPaper (row : PaperRow)
  | deletePaper (id : Int)
  | upsertLinks (rows : List (Int × Int))
  | upsertExamBoard (name : String)
  | upsertSubject (name : String) (examBoardId : Option Int)
  | upsertTag (subj : Int) (tagName : String) (pos : Nat)
  | upsertTagValue (tagId : Int) (value : String)
deriving DecidableEq

/-- Backend responses to the four upsert calls in live mode (the id of the
upserted row, or `none` when the call returns no data). -/
structure LiveOracle where
  eb : String → Option Int
  subj : String → Option Int → Option Int
  tag : Int → String → Nat → Option Int
  tagValue : Int → String → Option Int

/-- `ensure_exam_board` (lines 89-96): dry-run performs no remote call and
returns no id; live mode upserts by name and returns the row id. -/
def ensure_exam_board (oracle : LiveOracle) (name : String) (dryRun : Bool) :
    Option Int × List Op :=
  if dryRun then (none, [])
  else (oracle.eb name, [Op.upsertExamBoard name])

/-- `ensure_subject` (lines 99-108). -/
def ensure_subject (oracle : LiveOracle) (name : String)
    (exam_board_id : Option Int) (dryRun : Bool) : Option Int × List Op :=
  if dryRun then (none, [])
  else (oracle.subj name exam_board_id, [Op.upsertSubject name exam_board_id])

/-- `ensure_tag` (lines 111-121). -/
def ensure_tag (oracle : LiveOracle) (subject_id : Int) (name : String)
    (pos : Nat) (dryRun : Bool) : Option Int × List Op :=
  if dryRun then (none, [])
  else (oracle.tag subject_id name pos, [Op.upsertTag subject_id name pos])

/-- `ensure_tag_value` (lines 124-134). -/
def ensure_tag_value (oracle : LiveOracle) (tag_id : Int) (value : String)
    (dryRun : Bool) : Option Int × List Op :=
  if dryRun then (none, [])
  else (oracle.tagValue tag_id value, [Op.upsertTagValue tag_id value])

/-- The exam-board upsert loop of `main` (lines 262-272): live mode calls
`ensure_exam_board` per required name; dry-run records `None` for every
name without calling anything. -/
def upsert_exam_boards (dryRun : Bool) (oracle : LiveOracle)
    (names : List String) : List (String × Option Int) × List Op :=
  names.foldl
    (fun acc n =>
      if !dryRun then
        let r := ensure_exam_board oracle n false
        (ainsert acc.1 n r.1, acc.2 ++ r.2)
      else (ainsert acc.1 n none, acc.2))
    ([], [])

/-- State of the subject upsert loop: the `subject_old_to_new` map, the
dry-run placeholder counter (`dummy_subject_id`), and the emitted ops. -/
structure SubjPhase where
  map : List (String × Option Int)
  dummy : Int
  ops : List Op
deriving DecidableEq

/-- The subject upsert loop of `main` (lines 275-290): iterate the loaded
subjects dict, skip subjects not in `required_tag_values`; live mode calls
`ensure_subject` with the exam-board id resolved through
`exam_name_to_id`; dry-run assigns the strictly decreasing negative
placeholder `dummy_subject_id`. -/
def upsert_subjects (dryRun : Bool) (oracle : LiveOracle)
    (subjects : List (String × LegacySubject))
    (exams : List (String × LegacyExam))
    (requiredTagValues : List (String × List (String × List String)))
    (examNameToId : List (String × Option Int)) : SubjPhase :=
  subjects.foldl
    (fun sp p =>
      if (alookup requiredTagValues p.1).isNone then sp
      else
        let examName : Option String :=
          match alookup exams p.2.exam_id with
          | some e => some e.name
          | none => none
        let ebId : Option Int :=
          match examName with
          | some en =>
            if en = "" then none else (alookup examNameToId en).getD none
          | none => none
        if !dryRun then
          let r := ensure_subject oracle p.2.name ebId false
          { sp with map := ainsert sp.map p.1 r.1, ops := sp.ops ++ r.2 }
        else
          { map := ainsert sp.map p.1 (some sp.dummy)
            dummy := sp.dummy - 1
            ops := sp.ops })
    { map := [], dummy := -1, ops := [] }

/-- `DEFAULT_TAGS` (line 34). -/
def default_tags : List String := ["paper", "season", "year", "time zone"]

/-- `DEFAULT_TAGS` with their 1-based positions (`pos_map`, line 303). -/
def enumerated_default_tags : List (Nat × String) := default_tags.enum

/-- State while creating one subject's default tags (lines 304-315): the
subject's `tag_cache` entry, its `tag_value_cache` entry (one empty dict
per successfully created tag), the global `dummy_tag_id` counter and the
emitted ops. -/
structure SubjTags where
  entry : List (String × Int)
  valueEntry : List (String × List (String × Int))
  dummyTag : Int
  ops : List Op
deriving DecidableEq

/-- The per-subject tag creation loop (lines 304-315): dry-run assigns the
decreasing `dummy_tag_id`; live mode calls `ensure_tag` and skips the tag
(no cache entries) when the returned id is falsy. -/
def tags_for_subject (dryRun : Bool) (oracle : LiveOracle) (subjNew : Int) :
    List (Nat × String) → SubjTags → SubjTags
  | [], st => st
  | (idx, name) :: rest, st =>
    if dryRun then
      tags_for_subject dryRun oracle subjNew rest
        { entry := ainsert st.entry name st.dummyTag
          valueEntry := ainsert st.valueEntry name []
          dummyTag := st.dummyTag - 1
          ops := st.ops }
    else
      let r := ensure_tag oracle subjNew name (idx + 1) false
      if optIntTruthy r.1 then
        tags_for_subject dryRun oracle subjNew rest
          { entry := ainsert st.entry name (r.1.getD 0)
            valueEntry := ainsert st.valueEntry name []
            dummyTag := st.dummyTag
            ops := st.ops ++ r.2 }
      else
        tags_for_subject dryRun oracle subjNew rest
          { st with ops := st.ops ++ r.2 }

/-- State while filling one tag's value cache (lines 321-329). -/
structure ValState where
  cache : List (String × Int)
  dummyValue : Int
  ops : List Op
deriving DecidableEq

/-- The per-tag value loop (lines 321-329): dry-run assigns the decreasing
`dummy_value_id`; live mode calls `ensure_tag_value`; either way the value
is cached only when the id is truthy. -/
def values_for_tag (dryRun : Bool) (oracle : LiveOracle) (tagId : Int) :
    List String → ValState → ValState
  | [], vs => vs
  | v :: rest, vs =>
    if dryRun then
      let newId := vs.dummyValue
      let cache1 :=
        if optIntTruthy (some newId) then ainsert vs.cache v newId
        else vs.cache
      values_for_tag dryRun oracle tagId rest
        { cache := cache1, dummyValue := vs.dummyValue - 1, ops := vs.ops }
    else
      let r := ensure_tag_value oracle tagId v false
      let cache1 :=
        if optIntTruthy r.1 then ainsert vs.cache v (r.1.getD 0)
        else vs.cache
      values_for_tag dryRun oracle tagId rest
        { cache := cache1, dummyValue := vs.dummyValue, ops := vs.ops ++ r.2 }

/-- State of one subject's value loops: its `tag_value_cache` entry, the
global `dummy_value_id` counter and the emitted ops. -/
structure SubjValues where
  valueEntry : List (String × List (String × Int))
  dummyValue : Int
  ops : List Op
deriving DecidableEq

/-- The per-subject value loops (lines 316-329): for each planned tag, skip
it when absent from the subject's `tag_cache` (`if not tag: continue`),
otherwise `setdefault` its value dict and fill it with `values_for_tag`. -/
def values_for_subject (dryRun : Bool) (oracle : LiveOracle)
    (entry : List (String × Int)) :
    List (String × List String) → SubjValues → SubjValues
  | [], sv => sv
  | (tagName, vals) :: rest, sv =>
    match alookup entry tagName with
    | none => values_for_subject dryRun oracle entry rest sv
    | some tagId =>
      let cur := (alookup sv.valueEntry tagName).getD []
      let r := values_for_tag dryRun oracle tagId vals
        { cache := cur, dummyValue := sv.dummyValue, ops := [] }
      values_for_subject dryRun oracle entry rest
        { valueEntry := ainsert sv.valueEntry tagName r.cache
          dummyValue := r.dummyValue
          ops := sv.ops ++ r.ops }

/-- State of the whole tags-and-values phase (lines 292-329): the two
caches keyed by new subject id, the two global dummy counters and the
emitted ops. -/
structure TagPhase where
  tagCache : List (Int × List (String × Int))
  tagValueCache : List (Int × List (String × List (String × Int)))
  dummyTag : Int
  dummyValue : Int
  ops : List Op
deriving DecidableEq

/-- The initial tags-phase state (counters both `-1`, lines 295-296). -/
def TagPhase.init : TagPhase :=
  { tagCache := [], tagValueCache := [], dummyTag := -1, dummyValue := -1
    ops := [] }

/-- One iteration of the tags-phase outer loop (lines 297-329): resolve the
subject's new id (skipping falsy ones), create its default tags, then fill
its planned tag values. -/
def tags_phase_step (dryRun : Bool) (oracle : LiveOracle)
    (subjMap : List (String × Option Int)) (st : TagPhase)
    (p : String × List (String × List String)) : TagPhase :=
  match (alookup subjMap p.1).getD none with
  | none => st
  | some v =>
    if v = 0 then st
    else
      let tr := tags_for_subject dryRun oracle v enumerated_default_tags
        { entry := [], valueEntry := [], dummyTag := st.dummyTag, ops := [] }
      let vr := values_for_subject dryRun oracle tr.entry p.2
        { valueEntry := tr.valueEntry, dummyValue := st.dummyValue, ops := [] }
      { tagCache := ainsert st.tagCache v tr.entry
        tagValueCache := ainsert st.tagValueCache v vr.valueEntry
        dummyTag := tr.dummyTag
        dummyValue := vr.dummyValue
        ops := st.ops ++ tr.ops ++ vr.ops }

/-- The tags-and-values phase: fold over `required_tag_values`. -/
def tags_phase (dryRun : Bool) (oracle : LiveOracle)
    (subjMap : List (String × Option Int))
    (rtv : List (String × List (String × List String))) (st : TagPhase) :
    TagPhase :=
  rtv.foldl (tags_phase_step dryRun oracle subjMap) st

/-! ## `bulk_import_exam_papers.py`: the record import loop -/

/-- The environment the record loop reads: the pdf directory, the set of
existing local files, the `subject_old_to_new` map and the nested
`tag_value_cache` lookup. -/
structure ImportEnv where
  pdfDir : String
  localFiles : List String
  subjMap : String → Option Int
  tvc : Int → String → String → Option Int

/-- The data assembled by the record-local preparation steps of the loop
body (lines 339-376) when none of them bails out. -/
structure PreData where
  subj : Int
  paperTag : Int
  seasonTag : Int
  yearTag : Int
  tzTag : Option Int
  qpLocal : String
  msLocal : Option String
deriving DecidableEq

/-- The record-local preparation steps of the loop body (lines 339-376):
resolve the new subject id (falsy means `subject unresolved`), resolve the
required `paper`/`season`/`year` tag-value ids (the `year` lookup key is
`str(rec.year)`) and the optional `time zone` id, then resolve the local
pdf paths (`pdf_dir / Path(url).name`) and require the question pdf — and
the mark-scheme pdf when an answer url is present — to exist on disk.
Returns `none` exactly when the body would append an error and `continue`
with the record counted failed. -/
def precheck (env : ImportEnv) (rec : Record) : Option PreData :=
  match env.subjMap rec.subject_old with
  | none => none
  | some subj =>
    if subj = 0 then none
    else
      let paperTag := env.tvc subj "paper" rec.paper
      let seasonTag := env.tvc subj "season" rec.season
      let yearTag := env.tvc subj "year" (importer_year_key rec)
      let tzTag : Option Int :=
        match rec.timezone with
        | some tz => env.tvc subj "time zone" tz
        | none => none
      if optIntTruthy paperTag && optIntTruthy seasonTag &&
          optIntTruthy yearTag then
        match rec.question_url with
        | none => none
        | some qurl =>
          let qp := env.pdfDir ++ "/" ++ pathName qurl
          let ms := rec.answer_url.map
            (fun u => env.pdfDir ++ "/" ++ pathName u)
          if env.localFiles.contains qp &&
              (match ms with
               | some m => env.localFiles.contains m
               | none => true) then
            some
              { subj := subj, paperTag := paperTag.getD 0
                seasonTag := seasonTag.getD 0, yearTag := yearTag.getD 0
                tzTag := tzTag, qpLocal := qp, msLocal := ms }
          else none
      else none

/-- `storage.remove(paths)`: delete the listed objects. -/
def removePaths (storage : List String) (ps : List String) : List String :=
  storage.filter (fun s => !(ps.contains s))

/-- The duplicate-detection query (lines 382-391): does a row with the same
`(subject_id, year, season, paper_code)` already exist? -/
def dupExists (st : Backend) (subj : Int) (rec : Record) : Bool :=
  st.papers.any
    (fun p =>
      p.subject_id == subj && p.year == rec.year && p.season == rec.season &&
        p.paper_code == rec.paper)

/-- Outcome oracle for the fallible remote steps of one record: whether
each upload, the parent-row insert, and the facet-link upsert succeed.
Rollback calls (`remove`/`delete`) are modelled as effective — the source
wraps them in `try/except` blocks that only log. -/
structure Outcomes where
  uploadQ : Bool
  uploadM : Bool
  insertPaper : Bool
  linkUpsert : Bool
deriving DecidableEq

/-- Per-record processing result: `imported`, `skipped` or `failed`
(each failure path also appends one error record, not modelled beyond the
counter). -/
inductive ResKind where
  | imported
  | skipped
  | failed
deriving DecidableEq

/-- The insert-and-link tail of the live loop body (lines 440-491), entered
with all required uploads done: insert the `exam_papers` row (on failure
remove the uploaded objects), then upsert the non-empty facet-link rows (on
failure delete the inserted row and remove the uploaded objects). -/
def commitPaper (o : Outcomes) (c : PreData) (rec : Record) (freshId : Int)
    (qPath : String) (mPath : Option String) (uploaded : List String)
    (st : Backend) (ops : List Op) : Backend × ResKind × List Op :=
  let row : PaperRow :=
    { id := freshId, subject_id := c.subj, year := rec.year
      season := rec.season, paper_code := rec.paper, paper_label := rec.paper
      time_zone := rec.timezone, question_paper_path := qPath
      mark_scheme_path := mPath }
  if !o.insertPaper then
    ({ st with storage := removePaths st.storage uploaded }, ResKind.failed,
      ops ++ [Op.insertPaper row, Op.removeObjs uploaded])
  else
    let st2 := { st with papers := st.papers ++ [row] }
    let tvBase :=
      ([c.paperTag, c.seasonTag, c.yearTag].filter
        (fun t => optIntTruthy (some t))).map (fun t => (freshId, t))
    let tvRows :=
      match c.tzTag with
      | some tz => if optIntTruthy (some tz) then tvBase ++ [(freshId, tz)] else tvBase
      | none => tvBase
    if tvRows = [] then
      (st2, ResKind.imported, ops ++ [Op.insertPaper row])
    else if !o.linkUpsert then
      ({ st2 with
          papers := st2.papers.filter (fun p => !(p.id == freshId))
          storage := removePaths st2.storage uploaded },
        ResKind.failed,
        ops ++ [Op.insertPaper row, Op.upsertLinks tvRows,
          Op.deletePaper freshId, Op.removeObjs uploaded])
    else
      ({ st2 with links := st2.links ++ tvRows }, ResKind.imported,
        ops ++ [Op.insertPaper row, Op.upsertLinks tvRows])

/-- One iteration of the record loop body of `main` (lines 339-495) after
the limit check and the `processed` bump.  In dry-run mode the remote block
(duplicate query, uploads, insert, links) is skipped entirely and the
record counts as imported once the local preparation succeeds.  In live
mode: duplicate rows are skipped before anything is uploaded; the question
pdf is uploaded first, then the mark scheme (on failure the uploaded
objects are removed); then `commitPaper` inserts and links with its own
rollbacks.  Every bail-out path is `failed` with the backend state exactly
as the rollbacks leave it.  `pfx` is the fresh `imports/<uuid4>` prefix and
`freshId` the id the insert would return. -/
def process_record (dryRun : Bool) (env : ImportEnv) (o : Outcomes)
    (pfx : String) (freshId : Int) (st : Backend) (rec : Record) :
    Backend × ResKind × List Op :=
  match precheck env rec with
  | none => (st, ResKind.failed, [])
  | some c =>
    if dryRun then (st, ResKind.imported, [])
    else
      let dupOp := Op.selectDup c.subj rec.year rec.season rec.paper
      if dupExists st c.subj rec then (st, ResKind.skipped, [dupOp])
      else
        let questionPath := pfx ++ "/question.pdf"
        let markPath : Option String :=
          match c.msLocal with
          | some _ => some (pfx ++ "/mark-scheme.pdf")
          | none => none
        if !o.uploadQ then
          (st, ResKind.failed, [dupOp, Op.upload questionPath])
        else
          let st1 := { st with storage := st.storage ++ [questionPath] }
          match markPath with
          | some mp =>
            if !o.uploadM then
              ({ st1 with storage := removePaths st1.storage [questionPath] },
                ResKind.failed,
                [dupOp, Op.upload questionPath, Op.upload mp,
                  Op.removeObjs [questionPath]])
            else
              commitPaper o c rec freshId questionPath markPath
                [questionPath, mp]
                { st1 with storage := st1.storage ++ [mp] }
                [dupOp, Op.upload questionPath, Op.upload mp]
          | none =>
            commitPaper o c rec freshId questionPath markPath [questionPath]
              st1 [dupOp, Op.upload questionPath]

/-- One planned record of the loop together with its per-record
nondeterminism: remote outcomes, the fresh upload prefix and the id its
insert would return. -/
structure RecStep where
  record : Record
  o : Outcomes
  pfx : String
  fid : Int

/-- The running counters of the loop (`result`, line 333) plus the backend
state and the op trace. -/
structure RunState where
  backend : Backend
  processed : Nat
  imported : Nat
  skipped : Nat
  failed : Nat
  ops : List Op
deriving DecidableEq

/-- The `--n-paper` limit check (lines 335-337): stop once the imported
count has reached the cap. -/
def capReached (cap : Option Nat) (imported : Nat) : Bool :=
  match cap with
  | some n => decide (imported ≥ n)
  | none => false

/-- The record loop of `main` (lines 334-495): before each record, break
when the cap on successfully imported records is reached; otherwise bump
`processed`, run the body, and bump the counter matching its outcome. -/
def main_loop (dryRun : Bool) (env : ImportEnv) (cap : Option Nat) :
    RunState → List RecStep → RunState
  | rs, [] => rs
  | rs, s :: rest =>
    if capReached cap rs.imported then rs
    else
      let r := process_record dryRun env s.o s.pfx s.fid rs.backend s.record
      main_loop dryRun env cap
        { backend := r.1
          processed := rs.processed + 1
          imported := rs.imported + (if r.2.1 = ResKind.imported then 1 else 0)
          skipped := rs.skipped + (if r.2.1 = ResKind.skipped then 1 else 0)
          failed := rs.failed + (if r.2.1 = ResKind.failed then 1 else 0)
          ops := rs.ops ++ r.2.2 }
        rest

/-! ## `bulk_import_exam_papers.py`: the whole run -/

/-- Build the loop's lookup environment from the caches produced by the
upsert phase (`subject_old_to_new.get`, `tag_value_cache.get(...).get`,
lines 339-350). -/
def envOfCaches (pdfDir : String) (localFiles : List String)
    (sp : SubjPhase) (tp : TagPhase) : ImportEnv :=
  { pdfDir := pdfDir
    localFiles := localFiles
    subjMap := fun s => (alookup sp.map s).getD none
    tvc := fun subj tag v =>
      match alookup tp.tagValueCache subj with
      | none => none
      | some tm =>
        match alookup tm tag with
        | none => none
        | some vm => alookup vm v }

/-- Everything `main` computes that the claims talk about. -/
structure FullRunResult where
  plan : CollectAcc
  ebMap : List (String × Option Int)
  subjPhase : SubjPhase
  tagPhase : TagPhase
  run : RunState
  ops : List Op

/-- The whole of `main` (lines 194-497) after argument/env plumbing: load
the reference indexes, run the planning pass, upsert exam boards, subjects,
tags and tag values, then run the record loop over the planned records.
`recOut`, `pfxOf` and `fidOf` supply each record's remote outcomes, fresh
upload prefix and fresh row id; `st0` is the initial backend state. -/
def full_run (dryRun : Bool) (oracle : LiveOracle) (examRows : List RefRow)
    (subjectRows : List RefRow) (qRows : List RawRow) (cap : Option Nat)
    (pdfDir : String) (localFiles : List String) (recOut : Nat → Outcomes)
    (pfxOf : Nat → String) (fidOf : Nat → Int) (st0 : Backend) :
    FullRunResult :=
  let exams := load_exams examRows
  let subjects := load_subjects subjectRows
  let plan := collect_records exams subjects qRows
  let eb := upsert_exam_boards dryRun oracle plan.requiredExams
  let sp := upsert_subjects dryRun oracle subjects exams
    plan.requiredTagValues eb.1
  let tp := tags_phase dryRun oracle sp.map plan.requiredTagValues
    TagPhase.init
  let env := envOfCaches pdfDir localFiles sp tp
  let steps := plan.records.enum.map
    (fun p => RecStep.mk p.2 (recOut p.1) (pfxOf p.1) (fidOf p.1))
  let run := main_loop dryRun env cap
    { backend := st0, processed := 0, imported := 0, skipped := 0
      failed := 0, ops := [] } steps
  { plan := plan, ebMap := eb.1, subjPhase := sp, tagPhase := tp, run := run
    ops := eb.2 ++ sp.ops ++ tp.ops ++ run.ops }

/-! ## Statement helpers and concrete fixtures -/

/-- `[d, d - 1, ..., d - n + 1]`: the ids handed out by a strictly
decreasing placeholder counter starting at `d`. -/
def descList (d : Int) : Nat → List Int
  | 0 => []
  | n + 1 => d :: descList (d - 1) n

/-- All tag ids stored in a `tag_cache`, in cache order. -/
def tagCacheIds (tc : List (Int × List (String × Int))) : List Int :=
  (tc.map (fun p => p.2.map (fun q => q.2))).flatten

/-- All value ids stored in one subject's `tag_value_cache` entry, in cache
order. -/
def entryValueIds (ve : List (String × List (String × Int))) : List Int :=
  (ve.map (fun p => p.2.map (fun q => q.2))).flatten

/-- All value ids stored in a `tag_value_cache`, in cache order. -/
def valueCacheIds (tvc : List (Int × List (String × List (String × Int)))) :
    List Int :=
  (tvc.map (fun p => entryValueIds p.2)).flatten

/-- The truthy new subject ids the tags phase processes, in processing
order. -/
def processedSubjNews (subjMap : List (String × Option Int))
    (rtv : List (String × List (String × List String))) : List Int :=
  rtv.filterMap
    (fun p =>
      match (alookup subjMap p.1).getD none with
      | none => none
      | some v => if v = 0 then none else some v)

/-- The promotion condition exactly as claim C3 words it: subject, exam,
paper and season non-empty, year parses as an integer, and a question asset
URL present. -/
def c3_claim_condition (row : RawRow) : Bool :=
  record_fields_ok row

/-- The planned values of one tag of one subject
(`required_tag_values[subjId][tag]`, empty when absent). -/
def plannedTagValues (rtv : List (String × List (String × List String)))
    (subjId tag : String) : List String :=
  (alookup ((alookup rtv subjId).getD []) tag).getD []

/-- Fixture: an import environment in which every record resolves. -/
def fxEnv : ImportEnv :=
  { pdfDir := "pdf", localFiles := ["pdf/q.pdf", "pdf/a.pdf"]
    subjMap := fun _ => some 1, tvc := fun _ _ _ => some 5 }

/-- Fixture: a fully resolvable record with both assets. -/
def fxRec : Record :=
  { subject_old := "s1", exam_old := "e1", paper := "1", season := "summer"
    year := 2020, timezone := none, question_url := some "q.pdf"
    answer_url := some "a.pdf" }

/-- Fixture: the empty backend. -/
def fxBackend : Backend := { storage := [], papers := [], links := [] }

/-- Fixture: all remote steps succeed. -/
def fxOkOutcomes : Outcomes :=
  { uploadQ := true, uploadM := true, insertPaper := true, linkUpsert := true }

/-- Fixture: the mark-scheme upload fails. -/
def fxMarkFailOutcomes : Outcomes :=
  { uploadQ := true, uploadM := false, insertPaper := true, linkUpsert := true }

/-- Fixture: the `i`-th of ten importable records (distinct years, so no
duplicate detection fires). -/
def fxRecAt (i : Nat) : Record :=
  { subject_old := "s1", exam_old := "e1", paper := "1", season := "summer"
    year := Int.ofNat i, timezone := none, question_url := some "q.pdf"
    answer_url := none }

/-- Fixture: ten importable loop steps with distinct prefixes and ids. -/
def fxTenSteps : List RecStep :=
  (List.range 10).map
    (fun i =>
      RecStep.mk (fxRecAt i) fxOkOutcomes ("p" ++ toString i) (Int.ofNat i))

/-- Fixture: the initial run state over the empty backend. -/
def fxRun0 : RunState :=
  { backend := fxBackend, processed := 0, imported := 0, skipped := 0
    failed := 0, ops := [] }

/-- Fixture: a chapter map containing only `Quadratics`. -/
def fxChapterMap : List (String × Int) := [("Quadratics", 7)]

/-- Fixture: a question whose images are all present (no blocks) but whose
chapter `Algebra` resolves to nothing against `fxChapterMap`. -/
def fxChapterObj : QuestionObj :=
  { srcId := some "q1", subject := some "s1", exam := some "e1"
    chapter := some "Algebra", mark := some 3, pYear := some "2020"
    pPaper := some "1", pSeason := some "summer", pTimezone := none
    blocks := [], difficulty := some 2, calculator := some true }

/-- Fixture: a question with one image block whose file does not exist
locally. -/
def fxMissingImgObj : QuestionObj :=
  { srcId := some "q2", subject := some "s1", exam := some "e1"
    chapter := none, mark := some 3, pYear := some "2020"
    pPaper := some "1", pSeason := some "summer", pTimezone := none
    blocks := [Block.mk "image" "/img/x.png"], difficulty := some 2
    calculator := some true }

/-- Fixture: a question row satisfying every field requirement of claim C3
(subject `s1`, exam `e1`, non-empty paper/season, integer year, question
url). -/
def fxRow : RawRow :=
  { questionBank := some 2, subject := some "s1", exam := some "e1"
    pPaper := some "P1", pSeason := some "summer", pYear := some "2020"
    pTimezone := none, questionUrl := some "files/q.pdf", answerUrl := none }

/-- Fixture: `fxRow` with a non-canonical year string. -/
def fxRowYearSpace : RawRow := { fxRow with pYear := some " 2020" }

/-- Fixture: the loaded exams index with one exam. -/
def fxExams : List (String × LegacyExam) :=
  [("e1", LegacyExam.mk "e1" "IGCSE")]

/-- Fixture: the loaded subjects index with one subject of that exam. -/
def fxSubjects : List (String × LegacySubject) :=
  [("s1", LegacySubject.mk "s1" "Maths" "e1")]

/-- Fixture: a live oracle that always returns no id (never consulted by
the dry-run theorems). -/
def fxOracle : LiveOracle :=
  { eb := fun _ => none, subj := fun _ _ => none, tag := fun _ _ _ => none
    tagValue := fun _ _ => none }

/-! ## Helper lemmas -/

theorem toList_mk (l : List Char) : (String.mk l).toList = l := rfl

theorem splitFirstAux_of_not_mem {sep : Char} {l : List Char}
    (h : sep ∉ l) : splitFirstAux sep l = none := by
  induction l with
  | nil => rfl
  | cons c cs ih =>
    have hc : c ≠ sep := by
      intro e; exact h (e ▸ List.mem_cons_self c cs)
    have hcs : sep ∉ cs := fun m => h (List.mem_cons_of_mem c m)
    simp [splitFirstAux, hc, ih hcs]

theorem splitFirstAux_append {sep : Char} {a : List Char} (b : List Char)
    (h : sep ∉ a) : splitFirstAux sep (a ++ sep :: b) = some (a, b) := by
  induction a with
  | nil => simp [splitFirstAux]
  | cons c cs ih =>
    have hc : c ≠ sep := by
      intro e; exact h (e ▸ List.mem_cons_self c cs)
    have hcs : sep ∉ cs := fun m => h (List.mem_cons_of_mem c m)
    simp [splitFirstAux, hc, ih hcs]

/-! ## Claim C4 -/

/-- Claim C4: chapter key parsing and resolution order.  A raw chapter
string splits at the first `@` only (with both parts stripped), a string
without `@` is the parent alone; the lookup key is `parent@sub` when a
(truthy) sub exists and `parent` otherwise; the code's resolution equals
the specification's ordered fallback (full key, then sub name when a sub
exists, then parent name when none); `Algebra@Quadratics` against the map
containing only `Quadratics ↦ 7` resolves to `7`, and `Algebra` against
any map not containing `Algebra` resolves to `null`. -/
theorem C4_chapter_key_resolution :
    (∀ l : List Char, '@' ∉ l →
      parse_chapter_name (String.mk l) = (String.mk l, none)) ∧
    (∀ a b : List Char, '@' ∉ a →
      parse_chapter_name (String.mk (a ++ '@' :: b)) =
        (strTrim (String.mk a), some (strTrim (String.mk b)))) ∧
    (∀ p s, s ≠ "" → get_chapter_key p (some s) = p ++ "@" ++ s) ∧
    (∀ p, get_chapter_key p none = p) ∧
    (∀ cm raw,
      resolve_chapter_id cm raw = resolve_chapter_id_specOrder cm raw) ∧
    resolve_chapter_id fxChapterMap "Algebra@Quadratics" = some 7 ∧
    (∀ cm, alookup cm "Algebra" = none →
      resolve_chapter_id cm "Algebra" = none) := by
  refine ⟨?_, ?_, ?_, ?_, ?_, ?_, ?_⟩
  · intro l h
    simp [parse_chapter_name, toList_mk, splitFirstAux_of_not_mem h]
  · intro a b h
    simp [parse_chapter_name, toList_mk, splitFirstAux_append b h]
  · intro p s h
    simp [get_chapter_key, h]
  · intro p
    rfl
  · intro cm raw
    rcases hpc : parse_chapter_name raw with ⟨par, sub⟩
    cases sub with
    | none =>
      simp [resolve_chapter_id, resolve_chapter_id_specOrder, hpc,
        get_chapter_key]
    | some s =>
      by_cases hs : s = ""
      · subst hs
        simp [resolve_chapter_id, resolve_chapter_id_specOrder, hpc,
          get_chapter_key]
      · have hs2 : (s == "") = false := by
          simp [hs]
        simp only [resolve_chapter_id, resolve_chapter_id_specOrder, hpc,
          get_chapter_key, hs, hs2, if_neg, Bool.not_false, if_true,
          Option.getD_some]
        cases h1 : alookup cm (par ++ "@" ++ s) with
        | some i => simp [h1]
        | none =>
          cases h2 : alookup cm s with
          | some i => simp [h1, h2]
          | none => simp [h1, h2]
  · decide
  · intro cm h
    have hp : parse_chapter_name "Algebra" = ("Algebra", none) := by decide
    simp [resolve_chapter_id, hp, get_chapter_key, h]

/-- Closed witness for C4 at concrete inputs. -/
theorem C4_witness :
    parse_chapter_name (String.mk ['A', 'b']) = (String.mk ['A', 'b'], none) ∧
    resolve_chapter_id [] "Algebra" = none :=
  ⟨C4_chapter_key_resolution.1 ['A', 'b'] (by decide),
   C4_chapter_key_resolution.2.2.2.2.2.2 [] (by decide)⟩

/-! ## Claim C2 -/

/-- Claim C2 (code bug): with a non-empty chapter map, a record whose
chapter fails to resolve is *rejected*, not converted with a null chapter
id.  `fxChapterObj` has every image present (no blocks) and chapter
`Algebra`, which resolves to nothing against `fxChapterMap`; the code adds
the marker `chapter:Algebra` to `missing_local`, so `build_output_item`
returns no item, and the conversion loop counts the record failed —
contradicting the source's own inline comment (line 766: the marker path
claims not to return `None`) and the specification's non-fatality rule. -/
theorem C2_chapter_marker_rejects_record :
    build_output_item [] "images" fxChapterMap fxChapterObj =
      (none, ["chapter:Algebra"],
        [ConvErr.mk "q1" ErrorType.chapter_mapping_failed]) ∧
    (convert_step [] "images" fxChapterMap ConvAcc.empty fxChapterObj).results
      = [] ∧
    (convert_step [] "images" fxChapterMap ConvAcc.empty
      fxChapterObj).failed = 1 ∧
    (convert_step [] "images" fxChapterMap ConvAcc.empty
      fxChapterObj).processed = 1 := by
  refine ⟨?_, ?_, ?_, ?_⟩ <;> decide

/-! ## Claim C8 -/

theorem extract_images_none_snd_ne_nil (fs : List String)
    (kind root : String) :
    ∀ bs : List Block, (extract_images fs kind root bs).1 = none →
      (extract_images fs kind root bs).2 ≠ [] := by
  intro bs
  induction bs with
  | nil => simp [extract_images]
  | cons b rest ih =>
    by_cases hk : b.btype = kind
    · by_cases hf : pathName b.urlPath = ""
      · simpa [extract_images, hk, hf] using ih
      · cases hfind : find_image_path fs (some (lstripSlash b.urlPath))
            (pathName b.urlPath) root with
        | none => simp [extract_images, hk, hf, hfind]
        | some found =>
          rcases hrec : extract_images fs kind root rest with ⟨orest, ml⟩
          cases orest with
          | none =>
            intro _
            have := ih (by rw [hrec])
            rw [hrec] at this
            simpa [extract_images, hk, hf, hfind, hrec] using this
          | some r => simp [extract_images, hk, hf, hfind, hrec]
    · simpa [extract_images, hk] using ih

theorem extract_images_isSome_iff (fs : List String) (kind root : String) :
    ∀ bs : List Block,
      ((extract_images fs kind root bs).1.isSome = true) ↔
        (∀ b ∈ bs, b.btype = kind → pathName b.urlPath ≠ "" →
          (find_image_path fs (some (lstripSlash b.urlPath))
            (pathName b.urlPath) root).isSome = true) := by
  intro bs
  induction bs with
  | nil => simp [extract_images]
  | cons b rest ih =>
    by_cases hk : b.btype = kind
    · by_cases hf : pathName b.urlPath = ""
      · constructor
        · intro h
          refine List.forall_mem_cons.mpr ⟨fun _ hne => absurd hf hne, ?_⟩
          exact ih.mp (by simpa [extract_images, hk, hf] using h)
        · intro h
          have h2 := (List.forall_mem_cons.mp h).2
          simpa [extract_images, hk, hf] using ih.mpr h2
      · cases hfind : find_image_path fs (some (lstripSlash b.urlPath))
            (pathName b.urlPath) root with
        | none =>
          constructor
          · intro h
            exfalso
            simp [extract_images, hk, hf, hfind] at h
          · intro h
            exfalso
            have h1 := (List.forall_mem_cons.mp h).1 hk hf
            rw [hfind] at h1
            simp at h1
        | some found =>
          rcases hrec : extract_images fs kind root rest with ⟨orest, ml⟩
          have ih2 := ih
          rw [hrec] at ih2
          cases orest with
          | none =>
            constructor
            · intro h
              exfalso
              simp [extract_images, hk, hf, hfind, hrec] at h
            · intro h
              exfalso
              have h2 := (List.forall_mem_cons.mp h).2
              have h3 := ih2.mpr h2
              simp at h3
          | some r =>
            constructor
            · intro _
              refine List.forall_mem_cons.mpr ⟨?_, ?_⟩
              · intro _ _
                rw [hfind]
                rfl
              · exact ih2.mp rfl
            · intro _
              simp [extract_images, hk, hf, hfind, hrec]
    · constructor
      · intro h
        refine List.forall_mem_cons.mpr ⟨fun hbk => absurd hbk hk, ?_⟩
        exact ih.mp (by simpa [extract_images, hk] using h)
      · intro h
        have h2 := (List.forall_mem_cons.mp h).2
        simpa [extract_images, hk] using ih.mpr h2

theorem build_output_item_missing (fs : List String) (root : String)
    (cm : List (String × Int)) (obj : QuestionObj)
    (h : (extract_images fs "image" root obj.blocks).1 = none ∨
      (extract_images fs "imageAnswer" root obj.blocks).1 = none) :
    build_output_item fs root cm obj =
      (none,
        (extract_images fs "image" root obj.blocks).2 ++
          (extract_images fs "imageAnswer" root obj.blocks).2,
        [ConvErr.mk (objSourceId obj) ErrorType.missing_image]) := by
  rcases h with h | h
  · simp only [build_output_item, h]
  · simp only [build_output_item, h]
    cases (extract_images fs "image" root obj.blocks).1 <;> rfl

theorem convert_step_missing (fs : List String) (root : String)
    (cm : List (String × Int)) (acc : ConvAcc) (obj : QuestionObj)
    (h : (extract_images fs "image" root obj.blocks).1 = none ∨
      (extract_images fs "imageAnswer" root obj.blocks).1 = none) :
    (convert_step fs root cm acc obj).results = acc.results ∧
    (convert_step fs root cm acc obj).failed = acc.failed + 1 := by
  have hml : (extract_images fs "image" root obj.blocks).2 ++
      (extract_images fs "imageAnswer" root obj.blocks).2 ≠ [] := by
    rcases h with h | h
    · intro e
      exact extract_images_none_snd_ne_nil fs "image" root obj.blocks h
        (List.append_eq_nil.mp e).1
    · intro e
      exact extract_images_none_snd_ne_nil fs "imageAnswer" root obj.blocks h
        (List.append_eq_nil.mp e).2
  simp [convert_step, build_output_item_missing fs root cm obj h, hml]

theorem build_output_item_isSome_extracts (fs : List String) (root : String)
    (cm : List (String × Int)) (obj : QuestionObj)
    (h : ((build_output_item fs root cm obj).1).isSome = true) :
    ((extract_images fs "image" root obj.blocks).1).isSome = true ∧
    ((extract_images fs "imageAnswer" root obj.blocks).1).isSome = true := by
  cases hq : (extract_images fs "image" root obj.blocks).1 with
  | none =>
    rw [build_output_item_missing fs root cm obj (Or.inl hq)] at h
    simp at h
  | some q =>
    cases ha : (extract_images fs "imageAnswer" root obj.blocks).1 with
    | none =>
      rw [build_output_item_missing fs root cm obj (Or.inr ha)] at h
      simp at h
    | some a => exact ⟨by simp [hq], by simp [ha]⟩

/-- Claim C8: image completeness is all-or-nothing per question.  If either
image kind of a record has an unresolvable image, `build_output_item`
produces no item and exactly one `missing_image` error, and the conversion
loop leaves the results untouched while counting one more failure; and
whenever an output item is produced, every image referenced by every
`image`/`imageAnswer` block with a filename resolves to an existing local
file. -/
theorem C8_image_completeness :
    (∀ (fs : List String) (root : String) (cm : List (String × Int))
      (obj : QuestionObj),
      ((extract_images fs "image" root obj.blocks).1 = none ∨
        (extract_images fs "imageAnswer" root obj.blocks).1 = none) →
      (build_output_item fs root cm obj).1 = none ∧
      (build_output_item fs root cm obj).2.2 =
        [ConvErr.mk (objSourceId obj) ErrorType.missing_image] ∧
      ∀ acc : ConvAcc,
        (convert_step fs root cm acc obj).results = acc.results ∧
        (convert_step fs root cm acc obj).failed = acc.failed + 1) ∧
    (∀ (fs : List String) (root : String) (cm : List (String × Int))
      (obj : QuestionObj),
      ((build_output_item fs root cm obj).1).isSome = true →
      ∀ b ∈ obj.blocks, (b.btype = "image" ∨ b.btype = "imageAnswer") →
        pathName b.urlPath ≠ "" →
        (find_image_path fs (some (lstripSlash b.urlPath))
          (pathName b.urlPath) root).isSome = true) := by
  constructor
  · intro fs root cm obj h
    refine ⟨?_, ?_, fun acc => convert_step_missing fs root cm acc obj h⟩
    · rw [build_output_item_missing fs root cm obj h]
    · rw [build_output_item_missing fs root cm obj h]
  · intro fs root cm obj h b hb hkind hname
    rcases build_output_item_isSome_extracts fs root cm obj h with ⟨hq, ha⟩
    rcases hkind with hkind | hkind
    · exact (extract_images_isSome_iff fs "image" root obj.blocks).mp hq
        b hb hkind hname
    · exact (extract_images_isSome_iff fs "imageAnswer" root obj.blocks).mp ha
        b hb hkind hname

/-- Closed witness for C8: a record with one unresolvable image produces no
item, one `missing_image` error, and counts as failed. -/
theorem C8_witness :
    (build_output_item [] "images" [] fxMissingImgObj).1 = none ∧
    (build_output_item [] "images" [] fxMissingImgObj).2.2 =
      [ConvErr.mk "q2" ErrorType.missing_image] ∧
    (convert_step [] "images" [] ConvAcc.empty fxMissingImgObj).results = [] ∧
    (convert_step [] "images" [] ConvAcc.empty fxMissingImgObj).failed = 1 := by
  have h := C8_image_completeness.1 [] "images" [] fxMissingImgObj
    (Or.inl (by decide))
  exact ⟨h.1, h.2.1, (h.2.2 ConvAcc.empty).1, (h.2.2 ConvAcc.empty).2⟩

/-! ## Claim C3 -/

/-- Counterexample to claim C3 as stated: `fxRow` satisfies every field
condition the claim lists (non-empty subject/exam/paper/season, integer
year, question url), yet against empty legacy indexes it is not promoted to
a `Record` — the lookup failure produces a `legacy subject/exam not found`
error instead.  Moreover a row of a different question bank that also fails
the field check produces no error at all. -/
theorem C3_promotion_counterexample :
    c3_claim_condition fxRow = true ∧
    (collect_records [] [] [fxRow]).records = [] ∧
    (collect_records [] [] [fxRow]).errors =
      [("legacy subject/exam not found", fxRow)] ∧
    (collect_records [] []
      [{ fxRow with questionBank := some 0, pYear := none }]).errors = [] := by
  refine ⟨?_, ?_, ?_, ?_⟩ <;> decide

/-- Claim C3, amended: a legacy question row of question bank 2 becomes a
`Record` iff its subject, exam, paper and season fields are truthy, its
year parses as an integer, a question asset URL is present, *and* its
legacy subject and exam ids resolve in the loaded indexes.  A bank-2 row
failing the field check produces exactly one missing-fields error and no
record; a field-valid row whose reference lookup misses produces exactly
one not-found error and no record; rows of other banks are skipped
silently.  A promoted row keeps its raw timezone, so a row missing only the
timezone is promoted with `timezone = none`, and the importer's
record-local preparation succeeds independently of the timezone (absence
never blocks an import). -/
theorem C3_promotion_invariant_amended :
    ∀ (exams : List (String × LegacyExam))
      (subjects : List (String × LegacySubject)) (acc : CollectAcc)
      (row : RawRow),
      (row.questionBank ≠ some 2 → collect_step exams subjects acc row = acc) ∧
      (row.questionBank = some 2 → record_fields_ok row = false →
        collect_step exams subjects acc row =
          { acc with
            errors := acc.errors ++ [("missing fields/question url", row)] }) ∧
      (∀ subjObj examObj,
        row.questionBank = some 2 → record_fields_ok row = true →
        alookup subjects (row.subject.getD "") = some subjObj →
        alookup exams (row.exam.getD "") = some examObj →
        (collect_step exams subjects acc row).records =
          acc.records ++ [mkRecord subjObj examObj row] ∧
        (collect_step exams subjects acc row).errors = acc.errors ∧
        (mkRecord subjObj examObj row).timezone = row.pTimezone) ∧
      (row.questionBank = some 2 → record_fields_ok row = true →
        (alookup subjects (row.subject.getD "") = none ∨
          alookup exams (row.exam.getD "") = none) →
        (collect_step exams subjects acc row).records = acc.records ∧
        (collect_step exams subjects acc row).errors =
          acc.errors ++ [("legacy subject/exam not found", row)]) ∧
      (∀ (env : ImportEnv) (rec1 : Record) (tz : String),
        (precheck env { rec1 with timezone := none }).isSome =
          (precheck env { rec1 with timezone := some tz }).isSome) := by
  intro exams subjects acc row
  refine ⟨?_, ?_, ?_, ?_, ?_⟩
  · intro h
    simp [collect_step, h]
  · intro h1 h2
    simp [collect_step, h1, h2]
  · intro subjObj examObj h1 h2 hs he
    refine ⟨?_, ?_, rfl⟩ <;> simp [collect_step, h1, h2, hs, he]
  · intro h1 h2 h
    rcases h with h | h
    · constructor <;> simp [collect_step, h1, h2, h]
    · cases hs : alookup subjects (row.subject.getD "") with
      | none => constructor <;> simp [collect_step, h1, h2, hs]
      | some s => constructor <;> simp [collect_step, h1, h2, hs, h]
  · intro env rec1 tz
    simp only [precheck, importer_year_key]
    cases env.subjMap rec1.subject_old with
    | none => rfl
    | some subj =>
      by_cases h0 : subj = 0
      · simp [h0]
      · simp only [h0, if_false]
        by_cases hc : (optIntTruthy (env.tvc subj "paper" rec1.paper) &&
            optIntTruthy (env.tvc subj "season" rec1.season) &&
            optIntTruthy (env.tvc subj "year" (toString rec1.year))) = true
        · rw [if_pos hc, if_pos hc]
          cases rec1.question_url with
          | none => rfl
          | some qurl =>
            dsimp only
            by_cases hf : (env.localFiles.contains
                (env.pdfDir ++ "/" ++ pathName qurl) &&
                match Option.map (fun u => env.pdfDir ++ "/" ++ pathName u)
                    rec1.answer_url with
                  | some m => env.localFiles.contains m
                  | none => true) = true
            · rw [if_pos hf, if_pos hf]
              rfl
            · rw [if_neg hf, if_neg hf]
        · rw [if_neg hc, if_neg hc]

/-- Closed witness for C3 (amended): against the one-entry indexes, `fxRow`
(which has no timezone) is promoted and keeps `timezone = none`. -/
theorem C3_witness :
    (collect_step fxExams fxSubjects CollectAcc.empty fxRow).records =
      CollectAcc.empty.records ++
        [mkRecord (LegacySubject.mk "s1" "Maths" "e1")
          (LegacyExam.mk "e1" "IGCSE") fxRow] ∧
    (mkRecord (LegacySubject.mk "s1" "Maths" "e1")
      (LegacyExam.mk "e1" "IGCSE") fxRow).timezone = none := by
  have h := (C3_promotion_invariant_amended fxExams fxSubjects
    CollectAcc.empty fxRow).2.2.1 (LegacySubject.mk "s1" "Maths" "e1")
    (LegacyExam.mk "e1" "IGCSE") rfl (by decide) (by decide) (by decide)
  exact ⟨h.1, h.2.2.trans rfl⟩

/-! ## Claim C10 -/

theorem mem_sinsert_self (l : List String) (x : String) : x ∈ sinsert l x := by
  by_cases h : x ∈ l <;> simp [sinsert, h]

theorem mem_sinsert_of_mem (l : List String) (x v : String) (h : x ∈ l) :
    x ∈ sinsert l v := by
  by_cases hv : v ∈ l <;> simp [sinsert, hv, h]

theorem alookup_aupdateF_self {κ α : Type} [DecidableEq κ]
    (m : List (κ × α)) (k : κ) (dflt : α) (f : α → α) :
    alookup (aupdateF m k dflt f) k = some (f ((alookup m k).getD dflt)) := by
  induction m with
  | nil => simp [alookup, aupdateF]
  | cons p rest ih =>
    by_cases h : p.1 = k
    · simp [alookup, aupdateF, h]
    · simp [alookup, aupdateF, h, ih]

theorem alookup_aupdateF_ne {κ α : Type} [DecidableEq κ]
    (m : List (κ × α)) (k k2 : κ) (dflt : α) (f : α → α) (h : k2 ≠ k) :
    alookup (aupdateF m k dflt f) k2 = alookup m k2 := by
  induction m with
  | nil =>
    have hne : ¬ (k = k2) := fun e => h e.symm
    simp [alookup, aupdateF, hne]
  | cons p rest ih =>
    by_cases hp : p.1 = k
    · have hne : ¬ (k = k2) := fun e => h e.symm
      simp [alookup, aupdateF, hp, hne]
    · simp [alookup, aupdateF, hp, ih]

theorem mem_plannedTagValues_addTagValue_self
    (m : List (String × List (String × List String))) (s t v : String) :
    v ∈ plannedTagValues (addTagValue m s t v) s t := by
  unfold plannedTagValues addTagValue
  rw [alookup_aupdateF_self]
  simp only [Option.getD_some]
  rw [alookup_aupdateF_self]
  simpa using mem_sinsert_self _ v

theorem mem_plannedTagValues_addTagValue
    (m : List (String × List (String × List String))) (s t s2 t2 v x : String)
    (h : x ∈ plannedTagValues m s t) :
    x ∈ plannedTagValues (addTagValue m s2 t2 v) s t := by
  unfold plannedTagValues addTagValue at *
  by_cases hs : s = s2
  · subst hs
    rw [alookup_aupdateF_self]
    simp only [Option.getD_some]
    by_cases ht : t = t2
    · subst ht
      rw [alookup_aupdateF_self]
      simpa using mem_sinsert_of_mem _ x v h
    · rw [alookup_aupdateF_ne _ _ _ _ _ ht]
      exact h
  · rw [alookup_aupdateF_ne _ _ _ _ _ hs]
    exact h

theorem collect_step_promoted_rtv (exams : List (String × LegacyExam))
    (subjects : List (String × LegacySubject)) (acc : CollectAcc)
    (row : RawRow) (subjObj : LegacySubject) (examObj : LegacyExam)
    (h1 : row.questionBank = some 2) (h2 : record_fields_ok row = true)
    (hs : alookup subjects (row.subject.getD "") = some subjObj)
    (he : alookup exams (row.exam.getD "") = some examObj) :
    (collect_step exams subjects acc row).requiredTagValues =
      (match row.pTimezone with
       | some tz =>
         addTagValue
           (addTagValue
             (addTagValue
               (addTagValue acc.requiredTagValues subjObj.id "paper"
                 (row.pPaper.getD ""))
               subjObj.id "season" (row.pSeason.getD ""))
             subjObj.id "year" (row.pYear.getD ""))
           subjObj.id "time zone" tz
       | none =>
         addTagValue
           (addTagValue
             (addTagValue acc.requiredTagValues subjObj.id "paper"
               (row.pPaper.getD ""))
             subjObj.id "season" (row.pSeason.getD ""))
           subjObj.id "year" (row.pYear.getD "")) := by
  simp [collect_step, h1, h2, hs, he]

/-- Counterexample to claim C10 as stated: for the promoted row with raw
year `" 2020"`, the importer's year key is `"2020"`, while the planner
added only `" 2020"` to the requirement set — the two never agree. -/
theorem C10_year_key_counterexample :
    ((collect_records fxExams fxSubjects [fxRowYearSpace]).records.map
      importer_year_key) = ["2020"] ∧
    plannedTagValues
      (collect_records fxExams fxSubjects [fxRowYearSpace]).requiredTagValues
      "s1" "year" = [" 2020"] ∧
    ¬ ("2020" ∈ ([" 2020"] : List String)) := by
  refine ⟨?_, ?_, ?_⟩ <;> decide

/-- Claim C10, amended: while processing a promoted row the planner adds
the raw year string `str(year)` to the requirement set, and the importer
later keys the year facet lookup by `str(record.year)`, the canonical
decimal string of the parsed integer.  The two keys agree — that is, the
importer's key is among the year values the planner added for that row —
whenever the raw year string is the canonical decimal form of its parsed
value; for non-canonical raw years the keys differ
(`C10_year_key_counterexample`). -/
theorem C10_year_key_amended :
    ∀ (exams : List (String × LegacyExam))
      (subjects : List (String × LegacySubject)) (acc : CollectAcc)
      (row : RawRow) (subjObj : LegacySubject) (examObj : LegacyExam)
      (y : String),
      row.questionBank = some 2 → record_fields_ok row = true →
      alookup subjects (row.subject.getD "") = some subjObj →
      alookup exams (row.exam.getD "") = some examObj →
      row.pYear = some y →
      y ∈ plannedTagValues
        (collect_step exams subjects acc row).requiredTagValues
        subjObj.id "year" ∧
      importer_year_key (mkRecord subjObj examObj row) =
        toString ((parse_year y).getD 0) ∧
      (toString ((parse_year y).getD 0) = y →
        importer_year_key (mkRecord subjObj examObj row) ∈
          plannedTagValues
            (collect_step exams subjects acc row).requiredTagValues
            subjObj.id "year") := by
  intro exams subjects acc row subjObj examObj y h1 h2 hs he hy
  have hrtv := collect_step_promoted_rtv exams subjects acc row subjObj
    examObj h1 h2 hs he
  have hmem : y ∈ plannedTagValues
      (collect_step exams subjects acc row).requiredTagValues
      subjObj.id "year" := by
    rw [hrtv]
    cases htz : row.pTimezone with
    | some tz =>
      simp only [hy, Option.getD_some]
      exact mem_plannedTagValues_addTagValue _ _ _ _ _ _ _
        (mem_plannedTagValues_addTagValue_self _ _ _ _)
    | none =>
      simp only [hy, Option.getD_some]
      exact mem_plannedTagValues_addTagValue_self _ _ _ _
  have hkey : importer_year_key (mkRecord subjObj examObj row) =
      toString ((parse_year y).getD 0) := by
    simp [importer_year_key, mkRecord, hy]
  refine ⟨hmem, hkey, fun hround => ?_⟩
  rw [hkey, hround]
  exact hmem

/-- Closed witness for C10 (amended): with the canonical raw year
`"2020"`, the importer's key is among the planner's year values. -/
theorem C10_witness :
    importer_year_key
      (mkRecord (LegacySubject.mk "s1" "Maths" "e1")
        (LegacyExam.mk "e1" "IGCSE") fxRow) ∈
      plannedTagValues
        (collect_step fxExams fxSubjects CollectAcc.empty
          fxRow).requiredTagValues "s1" "year" := by
  have h := C10_year_key_amended fxExams fxSubjects CollectAcc.empty fxRow
    (LegacySubject.mk "s1" "Maths" "e1") (LegacyExam.mk "e1" "IGCSE") "2020"
    rfl (by decide) (by decide) (by decide) rfl
  exact h.2.2 (by decide)

/-! ## Claim C1 -/

theorem removePaths_append (l ps : List String) (h : ∀ x ∈ l, x ∉ ps) :
    removePaths (l ++ ps) ps = l := by
  unfold removePaths
  rw [List.filter_append]
  have h1 : l.filter (fun s => !(ps.contains s)) = l := by
    refine List.filter_eq_self.mpr (fun a ha => ?_)
    simpa using h a ha
  have h2 : ps.filter (fun s => !(ps.contains s)) = [] := by
    refine List.filter_eq_nil_iff.mpr (fun a ha => ?_)
    simp [ha]
  rw [h1, h2, List.append_nil]

theorem filter_ne_id_append (papers : List PaperRow) (row : PaperRow)
    (fid : Int) (h : ∀ p ∈ papers, p.id ≠ fid) (hrow : row.id = fid) :
    (papers ++ [row]).filter (fun p => !(p.id == fid)) = papers := by
  rw [List.filter_append]
  have h1 : papers.filter (fun p => !(p.id == fid)) = papers := by
    refine List.filter_eq_self.mpr (fun a ha => ?_)
    simp [h a ha]
  have h2 : ([row] : List PaperRow).filter (fun p => !(p.id == fid)) = [] := by
    simp [hrow]
  rw [h1, h2, List.append_nil]

theorem commitPaper_rollback (o : Outcomes) (c : PreData) (rec : Record)
    (fid : Int) (qPath : String) (mPath : Option String)
    (uploaded : List String) (stor : List String) (orig : Backend)
    (ops : List Op)
    (hs : removePaths stor uploaded = orig.storage)
    (hpid : ∀ p ∈ orig.papers, p.id ≠ fid)
    (hne : (commitPaper o c rec fid qPath mPath uploaded
      { orig with storage := stor } ops).2.1 ≠ ResKind.imported) :
    (commitPaper o c rec fid qPath mPath uploaded
      { orig with storage := stor } ops).1 = orig := by
  unfold commitPaper at hne ⊢
  cases hins : o.insertPaper with
  | false =>
    simp only [hins, Bool.not_false, if_true]
    simp [hs]
  | true =>
    simp only [hins, Bool.not_true, if_false] at hne ⊢
    set row : PaperRow :=
      { id := fid, subject_id := c.subj, year := rec.year
        season := rec.season, paper_code := rec.paper
        paper_label := rec.paper, time_zone := rec.timezone
        question_paper_path := qPath, mark_scheme_path := mPath } with hrow
    by_cases htv : (match c.tzTag with
        | some tz =>
          if optIntTruthy (some tz) then
            (([c.paperTag, c.seasonTag, c.yearTag].filter
              (fun t => optIntTruthy (some t))).map (fun t => (fid, t))) ++
              [(fid, tz)]
          else
            ([c.paperTag, c.seasonTag, c.yearTag].filter
              (fun t => optIntTruthy (some t))).map (fun t => (fid, t))
        | none =>
          ([c.paperTag, c.seasonTag, c.yearTag].filter
            (fun t => optIntTruthy (some t))).map (fun t => (fid, t))) =
        ([] : List (Int × Int))
    · exfalso
      apply hne
      simp [htv]
    · rw [if_neg htv] at hne ⊢
      cases hlink : o.linkUpsert with
      | false =>
        simp only [hlink, Bool.not_false, if_true]
        have hpapers : (orig.papers ++ [row]).filter
            (fun p => !(p.id == fid)) = orig.papers :=
          filter_ne_id_append orig.papers row fid hpid rfl
        simp [hpapers, hs]
      | true =>
        exfalso
        apply hne
        simp [hlink]

/-- Claim C1: all-or-nothing record commit in the live exam-paper importer.
Whenever the processing of one record does not end in `imported` — any
failure of the secondary upload, the parent-row insert, or the facet-link
upsert (and likewise any earlier bail-out or a duplicate skip) — the
backend state after the record equals the state before it: uploaded assets
are removed and the inserted parent row is deleted.  The freshness
hypotheses say the record's upload paths and row id did not already exist,
which the script guarantees with a fresh `uuid4` prefix and the insert's
returned id. -/
theorem C1_all_or_nothing_rollback :
    ∀ (env : ImportEnv) (o : Outcomes) (pfx : String) (fid : Int)
      (st : Backend) (rec : Record),
      (pfx ++ "/question.pdf") ∉ st.storage →
      (pfx ++ "/mark-scheme.pdf") ∉ st.storage →
      (∀ p ∈ st.papers, p.id ≠ fid) →
      (process_record false env o pfx fid st rec).2.1 ≠ ResKind.imported →
      (process_record false env o pfx fid st rec).1 = st := by
  intro env o pfx fid st rec hq hm hpid hne
  cases hpre : precheck env rec with
  | none => simp [process_record, hpre]
  | some c =>
    cases hdup : dupExists st c.subj rec with
    | true => simp [process_record, hpre, hdup]
    | false =>
      cases huq : o.uploadQ with
      | false => simp [process_record, hpre, hdup, huq]
      | true =>
        have hstq : ∀ x ∈ st.storage, x ∉ [pfx ++ "/question.pdf"] := by
          intro x hx
          simp only [List.mem_singleton]
          intro e
          subst e
          exact hq hx
        have hstqm : ∀ x ∈ st.storage,
            x ∉ [pfx ++ "/question.pdf", pfx ++ "/mark-scheme.pdf"] := by
          intro x hx hmem
          rcases List.mem_cons.mp hmem with e | hmem2
          · subst e
            exact hq hx
          · rcases List.mem_cons.mp hmem2 with e | h3
            · subst e
              exact hm hx
            · simp at h3
        cases hms : c.msLocal with
        | none =>
          have hrp : removePaths (st.storage ++ [pfx ++ "/question.pdf"])
              [pfx ++ "/question.pdf"] = st.storage :=
            removePaths_append st.storage [pfx ++ "/question.pdf"] hstq
          simp only [process_record, hpre, hdup, huq, hms,
            Bool.false_eq_true, Bool.not_true, if_false] at hne ⊢
          exact commitPaper_rollback o c rec fid (pfx ++ "/question.pdf")
            none [pfx ++ "/question.pdf"]
            (st.storage ++ [pfx ++ "/question.pdf"]) st
            [Op.selectDup c.subj rec.year rec.season rec.paper,
              Op.upload (pfx ++ "/question.pdf")] hrp hpid hne
        | some mfile =>
          cases hum : o.uploadM with
          | false =>
            have hrp : removePaths (st.storage ++ [pfx ++ "/question.pdf"])
                [pfx ++ "/question.pdf"] = st.storage :=
              removePaths_append st.storage [pfx ++ "/question.pdf"] hstq
            simp [process_record, hpre, hdup, huq, hms, hum, hrp]
          | true =>
            have hrp : removePaths
                ((st.storage ++ [pfx ++ "/question.pdf"]) ++
                  [pfx ++ "/mark-scheme.pdf"])
                [pfx ++ "/question.pdf", pfx ++ "/mark-scheme.pdf"] =
                st.storage := by
              rw [List.append_assoc]
              exact removePaths_append st.storage
                [pfx ++ "/question.pdf", pfx ++ "/mark-scheme.pdf"] hstqm
            simp only [process_record, hpre, hdup, huq, hms, hum,
              Bool.false_eq_true, Bool.not_true, if_false] at hne ⊢
            exact commitPaper_rollback o c rec fid (pfx ++ "/question.pdf")
              (some (pfx ++ "/mark-scheme.pdf"))
              [pfx ++ "/question.pdf", pfx ++ "/mark-scheme.pdf"]
              ((st.storage ++ [pfx ++ "/question.pdf"]) ++
                [pfx ++ "/mark-scheme.pdf"]) st
              [Op.selectDup c.subj rec.year rec.season rec.paper,
                Op.upload (pfx ++ "/question.pdf"),
                Op.upload (pfx ++ "/mark-scheme.pdf")] hrp hpid hne

/-- Closed witness for C1: the mark-scheme upload fails for `fxRec`, the
record fails, and the empty backend is unchanged. -/
theorem C1_witness :
    (process_record false fxEnv fxMarkFailOutcomes "p0" 1 fxBackend
      fxRec).1 = fxBackend :=
  C1_all_or_nothing_rollback fxEnv fxMarkFailOutcomes "p0" 1 fxBackend fxRec
    (by decide) (by decide) (by intro p hp; simp [fxBackend] at hp) (by decide)

/-! ## Claim C6 -/

theorem commitPaper_imported_dup (o : Outcomes) (c : PreData) (rec : Record)
    (fid : Int) (qPath : String) (mPath : Option String)
    (uploaded : List String) (st : Backend) (ops : List Op)
    (him : (commitPaper o c rec fid qPath mPath uploaded st ops).2.1 =
      ResKind.imported) :
    dupExists (commitPaper o c rec fid qPath mPath uploaded st ops).1
      c.subj rec = true := by
  unfold commitPaper at him ⊢
  cases hins : o.insertPaper with
  | false => simp [hins] at him
  | true =>
    simp only [hins, Bool.not_true, Bool.false_eq_true, if_false] at him ⊢
    by_cases htv : (match c.tzTag with
        | some tz =>
          if optIntTruthy (some tz) = true then
            (([c.paperTag, c.seasonTag, c.yearTag].filter
              (fun t => optIntTruthy (some t))).map (fun t => (fid, t))) ++
              [(fid, tz)]
          else
            ([c.paperTag, c.seasonTag, c.yearTag].filter
              (fun t => optIntTruthy (some t))).map (fun t => (fid, t))
        | none =>
          ([c.paperTag, c.seasonTag, c.yearTag].filter
            (fun t => optIntTruthy (some t))).map (fun t => (fid, t))) =
        ([] : List (Int × Int))
    · rw [if_pos htv]
      simp [dupExists, List.any_append]
    · rw [if_neg htv] at him ⊢
      cases hlink : o.linkUpsert with
      | false => simp [hlink] at him
      | true => simp [hlink, dupExists, List.any_append]

theorem process_record_imported_dup (env : ImportEnv) (o : Outcomes)
    (pfx : String) (fid : Int) (st : Backend) (rec : Record) (c : PreData)
    (hpre : precheck env rec = some c)
    (him : (process_record false env o pfx fid st rec).2.1 =
      ResKind.imported) :
    dupExists (process_record false env o pfx fid st rec).1 c.subj rec =
      true := by
  cases hdup : dupExists st c.subj rec with
  | true =>
    rw [process_record] at him
    rw [hpre] at him
    simp [hdup] at him
  | false =>
    cases huq : o.uploadQ with
    | false =>
      rw [process_record] at him
      rw [hpre] at him
      simp [hdup, huq] at him
    | true =>
      cases hms : c.msLocal with
      | none =>
        simp only [process_record, hpre, hdup, huq, hms,
          Bool.false_eq_true, Bool.not_true, if_false] at him ⊢
        exact commitPaper_imported_dup o c rec fid (pfx ++ "/question.pdf")
          none [pfx ++ "/question.pdf"] _ _ him
      | some mfile =>
        cases hum : o.uploadM with
        | false =>
          rw [process_record] at him
          rw [hpre] at him
          simp [hdup, huq, hms, hum] at him
        | true =>
          simp only [process_record, hpre, hdup, huq, hms, hum,
            Bool.false_eq_true, Bool.not_true, if_false] at him ⊢
          exact commitPaper_imported_dup o c rec fid
            (pfx ++ "/question.pdf") (some (pfx ++ "/mark-scheme.pdf"))
            [pfx ++ "/question.pdf", pfx ++ "/mark-scheme.pdf"] _ _ him

/-- Claim C6: duplicate detection skips rather than fails.  With the
record-local preparation done, a pre-existing row with the same
`(subject_id, year, season, paper_code)` makes the live loop body return
`skipped` with the backend untouched and nothing but the duplicate query in
the op trace; importing the same record twice (the first run imported)
makes the second run `skipped` with the backend unchanged; and the loop
counts a skipped record in the skip counter, not the failure counter, and
continues with the remaining records. -/
theorem C6_duplicate_skip :
    (∀ (env : ImportEnv) (o : Outcomes) (pfx : String) (fid : Int)
      (st : Backend) (rec : Record) (c : PreData),
      precheck env rec = some c → dupExists st c.subj rec = true →
      process_record false env o pfx fid st rec =
        (st, ResKind.skipped,
          [Op.selectDup c.subj rec.year rec.season rec.paper])) ∧
    (∀ (env : ImportEnv) (o1 o2 : Outcomes) (pfx1 pfx2 : String)
      (fid1 fid2 : Int) (st : Backend) (rec : Record),
      (process_record false env o1 pfx1 fid1 st rec).2.1 =
        ResKind.imported →
      (process_record false env o2 pfx2 fid2
        (process_record false env o1 pfx1 fid1 st rec).1 rec).2.1 =
        ResKind.skipped ∧
      (process_record false env o2 pfx2 fid2
        (process_record false env o1 pfx1 fid1 st rec).1 rec).1 =
        (process_record false env o1 pfx1 fid1 st rec).1) ∧
    (∀ (dr : Bool) (env : ImportEnv) (cap : Option Nat) (rs : RunState)
      (s : RecStep) (rest : List RecStep),
      capReached cap rs.imported = false →
      (process_record dr env s.o s.pfx s.fid rs.backend s.record).2.1 =
        ResKind.skipped →
      main_loop dr env cap rs (s :: rest) =
        main_loop dr env cap
          { backend :=
              (process_record dr env s.o s.pfx s.fid rs.backend s.record).1
            processed := rs.processed + 1
            imported := rs.imported
            skipped := rs.skipped + 1
            failed := rs.failed
            ops := rs.ops ++
              (process_record dr env s.o s.pfx s.fid rs.backend
                s.record).2.2 }
          rest) := by
  refine ⟨?_, ?_, ?_⟩
  · intro env o pfx fid st rec c hpre hdup
    rw [process_record]
    rw [hpre]
    simp [hdup]
  · intro env o1 o2 pfx1 pfx2 fid1 fid2 st rec him
    cases hpre : precheck env rec with
    | none =>
      rw [process_record] at him
      rw [hpre] at him
      simp at him
    | some c =>
      have hdup := process_record_imported_dup env o1 pfx1 fid1 st rec c
        hpre him
      constructor
      · rw [process_record]
        rw [hpre]
        simp [hdup]
      · rw [process_record]
        rw [hpre]
        simp [hdup]
  · intro dr env cap rs s rest hcap hskip
    rw [main_loop]
    simp [hcap, hskip]

/-- Closed witness for C6: importing `fxRec` twice over the empty backend
yields `imported` then `skipped`. -/
theorem C6_witness :
    (process_record false fxEnv fxOkOutcomes "p1" 2
      (process_record false fxEnv fxOkOutcomes "p0" 1 fxBackend fxRec).1
      fxRec).2.1 = ResKind.skipped :=
  (C6_duplicate_skip.2.1 fxEnv fxOkOutcomes fxOkOutcomes "p0" "p1" 1 2
    fxBackend fxRec (by decide)).1

/-! ## Claim C5 -/

theorem main_loop_cons_failed (dr : Bool) (env : ImportEnv)
    (cap : Option Nat) (rs : RunState) (s : RecStep) (rest : List RecStep)
    (hcap : capReached cap rs.imported = false)
    (hfail : (process_record dr env s.o s.pfx s.fid rs.backend
      s.record).2.1 = ResKind.failed) :
    main_loop dr env cap rs (s :: rest) =
      main_loop dr env cap
        { backend :=
            (process_record dr env s.o s.pfx s.fid rs.backend s.record).1
          processed := rs.processed + 1
          imported := rs.imported
          skipped := rs.skipped
          failed := rs.failed + 1
          ops := rs.ops ++
            (process_record dr env s.o s.pfx s.fid rs.backend s.record).2.2 }
        rest := by
  rw [main_loop]
  simp [hcap, hfail]

/-- Claim C5: the import cap counts only successes.  The loop never imports
more than the cap; records that fail (here: any record whose local
preparation fails, which is independent of the backend) are all attempted
and counted as failures without ever consuming the cap; and on ten
importable records with cap 3 exactly three are imported, exactly three
are attempted, and none is skipped or failed. -/
theorem C5_import_cap_counts_successes :
    (∀ (dr : Bool) (env : ImportEnv) (n : Nat) (rs : RunState)
      (steps : List RecStep), rs.imported ≤ n →
      (main_loop dr env (some n) rs steps).imported ≤ n) ∧
    (∀ (dr : Bool) (env : ImportEnv) (cap : Option Nat) (rs : RunState)
      (steps : List RecStep),
      capReached cap rs.imported = false →
      (∀ s ∈ steps, precheck env s.record = none) →
      (main_loop dr env cap rs steps).processed =
        rs.processed + steps.length ∧
      (main_loop dr env cap rs steps).imported = rs.imported ∧
      (main_loop dr env cap rs steps).failed = rs.failed + steps.length ∧
      (main_loop dr env cap rs steps).skipped = rs.skipped) ∧
    ((main_loop false fxEnv (some 3) fxRun0 fxTenSteps).imported = 3 ∧
      (main_loop false fxEnv (some 3) fxRun0 fxTenSteps).processed = 3 ∧
      (main_loop false fxEnv (some 3) fxRun0 fxTenSteps).failed = 0 ∧
      (main_loop false fxEnv (some 3) fxRun0 fxTenSteps).skipped = 0) := by
  refine ⟨?_, ?_, ?_⟩
  · intro dr env n rs steps
    induction steps generalizing rs with
    | nil =>
      intro h
      simpa [main_loop] using h
    | cons s rest ih =>
      intro h
      rw [main_loop]
      by_cases hcap : capReached (some n) rs.imported = true
      · simpa [hcap] using h
      · have hlt : rs.imported < n := by
          simp [capReached] at hcap
          omega
        simp only [Bool.not_eq_true] at hcap
        simp only [hcap, Bool.false_eq_true, if_false]
        apply ih
        dsimp only
        split <;> omega
  · intro dr env cap rs steps
    induction steps generalizing rs with
    | nil =>
      intro hcap hall
      simp [main_loop]
    | cons s rest ih =>
      intro hcap hall
      have hs := hall s (List.mem_cons_self s rest)
      have hfail : (process_record dr env s.o s.pfx s.fid rs.backend
          s.record).2.1 = ResKind.failed := by
        rw [process_record, hs]
      rw [main_loop_cons_failed dr env cap rs s rest hcap hfail]
      have ihr := ih
        { backend :=
            (process_record dr env s.o s.pfx s.fid rs.backend s.record).1
          processed := rs.processed + 1
          imported := rs.imported
          skipped := rs.skipped
          failed := rs.failed + 1
          ops := rs.ops ++
            (process_record dr env s.o s.pfx s.fid rs.backend s.record).2.2 }
        hcap (fun s2 hs2 => hall s2 (List.mem_cons_of_mem s hs2))
      refine ⟨?_, ?_, ?_, ?_⟩
      · rw [ihr.1]
        dsimp only [List.length_cons]
        omega
      · rw [ihr.2.1]
      · rw [ihr.2.2.1]
        dsimp only [List.length_cons]
        omega
      · rw [ihr.2.2.2]
  · refine ⟨?_, ?_, ?_, ?_⟩ <;> decide

/-- Closed witness for C5 at concrete inputs: the cap bound and the
failure-does-not-count clause, instantiated on the ten-record fixture and
an environment that resolves no subject. -/
theorem C5_witness :
    (main_loop false fxEnv (some 3) fxRun0 fxTenSteps).imported ≤ 3 ∧
    (main_loop false
      { pdfDir := "pdf", localFiles := [], subjMap := fun _ => none
        tvc := fun _ _ _ => none }
      (some 3) fxRun0 fxTenSteps).failed = 10 :=
  ⟨C5_import_cap_counts_successes.1 false fxEnv 3 fxRun0 fxTenSteps
    (by decide),
   by
    have h := (C5_import_cap_counts_successes.2.1 false
      { pdfDir := "pdf", localFiles := [], subjMap := fun _ => none
        tvc := fun _ _ _ => none }
      (some 3) fxRun0 fxTenSteps (by decide) (fun s hs => rfl)).2.2.1
    rw [h]
    decide⟩

/-! ## Claim C7 -/

theorem mem_ainsert {κ α : Type} [DecidableEq κ] (m : List (κ × α)) (k : κ)
    (v : α) (p : κ × α) (h : p ∈ ainsert m k v) : p ∈ m ∨ p = (k, v) := by
  induction m with
  | nil =>
    simp [ainsert] at h
    exact Or.inr h
  | cons q rest ih =>
    by_cases hq : q.1 = k
    · simp only [ainsert, hq, if_true] at h
      rcases List.mem_cons.mp h with he | hin
      · exact Or.inr he
      · exact Or.inl (List.mem_cons_of_mem q hin)
    · simp only [ainsert, hq, if_false] at h
      rcases List.mem_cons.mp h with he | hin
      · exact Or.inl (he ▸ List.mem_cons_self q rest)
      · rcases ih hin with h1 | h2
        · exact Or.inl (List.mem_cons_of_mem q h1)
        · exact Or.inr h2

theorem upsert_exam_boards_dry_aux (oracle : LiveOracle) :
    ∀ (ns : List String) (acc : List (String × Option Int) × List Op),
      (ns.foldl
        (fun acc n =>
          if !true then
            let r := ensure_exam_board oracle n false
            (ainsert acc.1 n r.1, acc.2 ++ r.2)
          else (ainsert acc.1 n none, acc.2)) acc).2 = acc.2 ∧
      ((∀ p ∈ acc.1, p.2 = none) →
        ∀ p ∈ (ns.foldl
          (fun acc n =>
            if !true then
              let r := ensure_exam_board oracle n false
              (ainsert acc.1 n r.1, acc.2 ++ r.2)
            else (ainsert acc.1 n none, acc.2)) acc).1, p.2 = none) := by
  intro ns
  induction ns with
  | nil => exact fun acc => ⟨rfl, fun h => h⟩
  | cons n rest ih =>
    intro acc
    refine ⟨(ih (ainsert acc.1 n none, acc.2)).1, fun h => ?_⟩
    refine (ih (ainsert acc.1 n none, acc.2)).2 ?_
    intro p hp
    rcases mem_ainsert acc.1 n none p hp with hin | he
    · exact h p hin
    · rw [he]

theorem upsert_exam_boards_dry (oracle : LiveOracle) (names : List String) :
    (upsert_exam_boards true oracle names).2 = [] ∧
    ∀ p ∈ (upsert_exam_boards true oracle names).1, p.2 = none := by
  unfold upsert_exam_boards
  exact ⟨(upsert_exam_boards_dry_aux oracle names ([], [])).1,
    (upsert_exam_boards_dry_aux oracle names ([], [])).2 (by simp)⟩

theorem upsert_subjects_dry_ops_aux (oracle : LiveOracle)
    (exams : List (String × LegacyExam))
    (rtv : List (String × List (String × List String)))
    (ebMap : List (String × Option Int)) :
    ∀ (subjects : List (String × LegacySubject)) (sp : SubjPhase),
      (subjects.foldl
        (fun sp p =>
          if (alookup rtv p.1).isNone then sp
          else
            let examName : Option String :=
              match alookup exams p.2.exam_id with
              | some e => some e.name
              | none => none
            let ebId : Option Int :=
              match examName with
              | some en =>
                if en = "" then none else (alookup ebMap en).getD none
              | none => none
            if !true then
              let r := ensure_subject oracle p.2.name ebId false
              { sp with map := ainsert sp.map p.1 r.1, ops := sp.ops ++ r.2 }
            else
              { map := ainsert sp.map p.1 (some sp.dummy)
                dummy := sp.dummy - 1
                ops := sp.ops }) sp).ops = sp.ops := by
  intro subjects
  induction subjects with
  | nil => intro sp; rfl
  | cons p rest ih =>
    intro sp
    by_cases hreq : (alookup rtv p.1).isNone = true
    · simp only [List.foldl_cons, hreq, if_true]
      exact ih sp
    · simp only [List.foldl_cons, hreq, if_false, Bool.not_true,
        Bool.false_eq_true]
      exact ih _

theorem upsert_subjects_dry_ops (oracle : LiveOracle)
    (subjects : List (String × LegacySubject))
    (exams : List (String × LegacyExam))
    (rtv : List (String × List (String × List String)))
    (ebMap : List (String × Option Int)) :
    (upsert_subjects true oracle subjects exams rtv ebMap).ops = [] := by
  unfold upsert_subjects
  exact upsert_subjects_dry_ops_aux oracle exams rtv ebMap subjects
    { map := [], dummy := -1, ops := [] }

theorem values_for_tag_dry_ops (oracle : LiveOracle) (tagId : Int) :
    ∀ (vals : List String) (vs : ValState),
      (values_for_tag true oracle tagId vals vs).ops = vs.ops := by
  intro vals
  induction vals with
  | nil => intro vs; rfl
  | cons v rest ih => intro vs; exact ih _

theorem tags_for_subject_dry_ops (oracle : LiveOracle) (v : Int) :
    ∀ (l : List (Nat × String)) (st : SubjTags),
      (tags_for_subject true oracle v l st).ops = st.ops := by
  intro l
  induction l with
  | nil => intro st; rfl
  | cons q rest ih => intro st; exact ih _

theorem values_for_subject_dry_ops (oracle : LiveOracle)
    (entry : List (String × Int)) :
    ∀ (tn : List (String × List String)) (sv : SubjValues),
      (values_for_subject true oracle entry tn sv).ops = sv.ops := by
  intro tn
  induction tn with
  | nil => intro sv; rfl
  | cons q rest ih =>
    intro sv
    rcases q with ⟨tagName, vals⟩
    cases hl : alookup entry tagName with
    | none =>
      simp only [values_for_subject, hl]
      exact ih sv
    | some tagId =>
      simp only [values_for_subject, hl]
      rw [ih _]
      dsimp only
      rw [values_for_tag_dry_ops oracle tagId vals
        { cache := (alookup sv.valueEntry tagName).getD []
          dummyValue := sv.dummyValue, ops := [] }]
      simp

theorem tags_phase_dry_ops (oracle : LiveOracle)
    (subjMap : List (String × Option Int)) :
    ∀ (rtv : List (String × List (String × List String))) (st : TagPhase),
      (tags_phase true oracle subjMap rtv st).ops = st.ops := by
  intro rtv
  induction rtv with
  | nil => intro st; rfl
  | cons p rest ih =>
    intro st
    rw [tags_phase, List.foldl_cons]
    have hstep : (tags_phase_step true oracle subjMap st p).ops = st.ops := by
      unfold tags_phase_step
      cases hsm : (alookup subjMap p.1).getD none with
      | none => rfl
      | some v =>
        by_cases h0 : v = 0
        · simp [h0]
        · simp only [h0, if_false]
          rw [tags_for_subject_dry_ops oracle v enumerated_default_tags
            { entry := [], valueEntry := [], dummyTag := st.dummyTag
              ops := [] }]
          rw [values_for_subject_dry_ops]
          simp
    have := ih (tags_phase_step true oracle subjMap st p)
    rw [tags_phase] at this
    rw [this, hstep]

theorem process_record_dry (env : ImportEnv) (o : Outcomes) (pfx : String)
    (fid : Int) (st : Backend) (rec : Record) :
    (process_record true env o pfx fid st rec).1 = st ∧
    (process_record true env o pfx fid st rec).2.2 = [] := by
  unfold process_record
  cases hpre : precheck env rec with
  | none => exact ⟨rfl, rfl⟩
  | some c => exact ⟨by simp, by simp⟩

theorem main_loop_dry (env : ImportEnv) (cap : Option Nat) :
    ∀ (steps : List RecStep) (rs : RunState),
      (main_loop true env cap rs steps).ops = rs.ops ∧
      (main_loop true env cap rs steps).backend = rs.backend := by
  intro steps
  induction steps with
  | nil => intro rs; exact ⟨rfl, rfl⟩
  | cons s rest ih =>
    intro rs
    rw [main_loop]
    by_cases hcap : capReached cap rs.imported = true
    · simp [hcap]
    · simp only [Bool.not_eq_true] at hcap
      simp only [hcap, Bool.false_eq_true, if_false]
      have hd := process_record_dry env s.o s.pfx s.fid rs.backend s.record
      constructor
      · rw [(ih _).1]
        dsimp only
        rw [hd.2]
        simp
      · rw [(ih _).2]
        dsimp only
        rw [hd.1]

/-- Claim C7: two-phase isolation and dry-run side-effect freedom.  The
planning pass is a pure function of the inputs — the plan computed by a
dry run and a live run coincide — and a dry run of the whole importer
emits no backend operation whatsoever (no upsert, select, upload, insert
or delete) and leaves the backend state untouched. -/
theorem C7_two_phase_dry_run_isolation :
    ∀ (oracle : LiveOracle) (examRows subjectRows : List RefRow)
      (qRows : List RawRow) (cap : Option Nat) (pdfDir : String)
      (localFiles : List String) (recOut : Nat → Outcomes)
      (pfxOf : Nat → String) (fidOf : Nat → Int) (st0 : Backend),
      (full_run true oracle examRows subjectRows qRows cap pdfDir localFiles
        recOut pfxOf fidOf st0).ops = [] ∧
      (full_run true oracle examRows subjectRows qRows cap pdfDir localFiles
        recOut pfxOf fidOf st0).run.backend = st0 ∧
      (full_run true oracle examRows subjectRows qRows cap pdfDir localFiles
        recOut pfxOf fidOf st0).plan =
        (full_run false oracle examRows subjectRows qRows cap pdfDir
          localFiles recOut pfxOf fidOf st0).plan := by
  intro oracle examRows subjectRows qRows cap pdfDir localFiles recOut
    pfxOf fidOf st0
  refine ⟨?_, ?_, rfl⟩
  · unfold full_run
    dsimp only
    rw [(upsert_exam_boards_dry oracle _).1]
    rw [upsert_subjects_dry_ops]
    rw [tags_phase_dry_ops]
    rw [(main_loop_dry _ _ _ _).1]
    simp [TagPhase.init]
  · unfold full_run
    dsimp only
    rw [(main_loop_dry _ _ _ _).2]

/-! ## Claim C9 -/

theorem descList_length (d : Int) (n : Nat) : (descList d n).length = n := by
  induction n generalizing d with
  | zero => rfl
  | succ m ih => simp [descList, ih]

theorem descList_append (d : Int) (k m : Nat) :
    descList d k ++ descList (d - k) m = descList d (k + m) := by
  induction k generalizing d with
  | zero => simp [descList]
  | succ k2 ih =>
    have h : d - (k2 + 1 : Nat) = d - 1 - k2 := by
      push_cast
      omega
    calc descList d (k2 + 1) ++ descList (d - (k2 + 1 : Nat)) m
        = d :: (descList (d - 1) k2 ++ descList (d - 1 - k2) m) := by
          rw [descList, h]
          simp
      _ = d :: descList (d - 1) (k2 + m) := by rw [ih]
      _ = descList d (k2 + 1 + m) := by
          have : k2 + 1 + m = (k2 + m) + 1 := by omega
          rw [this, descList]

theorem mem_descList (d : Int) (n : Nat) (x : Int) (h : x ∈ descList d n) :
    d - n < x ∧ x ≤ d := by
  induction n generalizing d with
  | zero => simp [descList] at h
  | succ m ih =>
    rw [descList] at h
    rcases List.mem_cons.mp h with he | hin
    · subst he
      constructor
      · push_cast
        omega
      · omega
    · rcases ih (d - 1) hin with ⟨h1, h2⟩
      constructor
      · push_cast at h1 ⊢
        omega
      · omega

theorem neg_of_mem_descList (d : Int) (n : Nat) (x : Int) (hd : d < 0)
    (h : x ∈ descList d n) : x < 0 :=
  lt_of_le_of_lt (mem_descList d n x h).2 hd

theorem nonneg_not_mem_descList (n : Nat) (r : Int) (hr : 0 ≤ r) :
    r ∉ descList (-1) n := fun h =>
  absurd (neg_of_mem_descList (-1) n r (by omega) h) (by omega)

theorem ainsert_append_of_not_mem {κ α : Type} [DecidableEq κ]
    (m : List (κ × α)) (k : κ) (v : α) (h : k ∉ m.map (fun q => q.1)) :
    ainsert m k v = m ++ [(k, v)] := by
  induction m with
  | nil => rfl
  | cons p rest ih =>
    have hne : ¬ (p.1 = k) := by
      intro e
      exact h (by simp [e])
    simp only [ainsert, hne, if_false, List.cons_append, List.cons.injEq,
      true_and]
    exact ih (fun hm => h (by simp at hm ⊢; exact Or.inr hm))

theorem map_snd_zip_descList (vals : List String) (d : Int) :
    ((vals.zip (descList d vals.length)).map (fun q => q.2)) =
      descList d vals.length := by
  have hlen : (descList d vals.length).length ≤ vals.length := by
    rw [descList_length]
  simpa using List.map_snd_zip vals (descList d vals.length) hlen

theorem values_for_tag_dry (oracle : LiveOracle) (tagId : Int) :
    ∀ (vals : List String) (cache : List (String × Int)) (d : Int)
      (ops0 : List Op),
      d < 0 → vals.Nodup →
      (∀ v ∈ vals, v ∉ cache.map (fun q => q.1)) →
      values_for_tag true oracle tagId vals
        { cache := cache, dummyValue := d, ops := ops0 } =
        { cache := cache ++ vals.zip (descList d vals.length)
          dummyValue := d - vals.length
          ops := ops0 } := by
  intro vals
  induction vals with
  | nil =>
    intro cache d ops0 hd hnd hfresh
    simp [values_for_tag, descList]
  | cons v rest ih =>
    intro cache d ops0 hd hnd hfresh
    have hvne : (d == 0) = false := by
      simp
      omega
    have hcache : ainsert cache v d = cache ++ [(v, d)] :=
      ainsert_append_of_not_mem cache v d
        (hfresh v (List.mem_cons_self v rest))
    rw [values_for_tag]
    simp only [optIntTruthy, hvne, Bool.not_false, if_true, hcache]
    rw [ih (cache ++ [(v, d)]) (d - 1) ops0 (by omega)
      (List.Nodup.of_cons hnd) ?fresh2]
    case fresh2 =>
      intro v2 hv2
      simp only [List.map_append, List.mem_append]
      push_neg
      constructor
      · exact hfresh v2 (List.mem_cons_of_mem v hv2)
      · simp only [List.map_cons, List.map_nil, List.mem_singleton]
        intro e
        rcases List.nodup_cons.mp hnd with ⟨hnotin, _⟩
        exact hnotin (e ▸ hv2)
    have hc : (cache ++ [(v, d)]) ++
        rest.zip (descList (d - 1) rest.length) =
        cache ++ (v :: rest).zip (descList d (v :: rest).length) := by
      rw [List.append_assoc]
      congr 1
    have hd2 : d - 1 - (rest.length : Int) =
        d - ((v :: rest).length : Int) := by
      simp only [List.length_cons]
      push_cast
      omega
    rw [hc, hd2]

theorem entryValueIds_cons (t : String) (c : List (String × Int))
    (ve : List (String × List (String × Int))) :
    entryValueIds ((t, c) :: ve) =
      c.map (fun q => q.2) ++ entryValueIds ve := by
  simp [entryValueIds]

theorem entryValueIds_of_all_nil (ve : List (String × List (String × Int)))
    (h : ∀ q ∈ ve, q.2 = []) : entryValueIds ve = [] := by
  induction ve with
  | nil => rfl
  | cons p rest ih =>
    rcases p with ⟨t, c⟩
    have hc : c = [] := h (t, c) (List.mem_cons_self _ _)
    rw [entryValueIds_cons, hc, ih (fun q hq => h q (List.mem_cons_of_mem _ hq))]
    rfl

theorem values_for_subject_cons_skip (oracle : LiveOracle)
    (entry : List (String × Int)) :
    ∀ (tn : List (String × List String)) (t0 : String)
      (c0 : List (String × Int)) (ve : List (String × List (String × Int)))
      (d : Int) (ops0 : List Op),
      t0 ∉ tn.map (fun q => q.1) →
      (values_for_subject true oracle entry tn
        { valueEntry := (t0, c0) :: ve, dummyValue := d
          ops := ops0 }).valueEntry =
        (t0, c0) :: (values_for_subject true oracle entry tn
          { valueEntry := ve, dummyValue := d, ops := ops0 }).valueEntry ∧
      (values_for_subject true oracle entry tn
        { valueEntry := (t0, c0) :: ve, dummyValue := d
          ops := ops0 }).dummyValue =
        (values_for_subject true oracle entry tn
          { valueEntry := ve, dummyValue := d, ops := ops0 }).dummyValue ∧
      (values_for_subject true oracle entry tn
        { valueEntry := (t0, c0) :: ve, dummyValue := d
          ops := ops0 }).ops =
        (values_for_subject true oracle entry tn
          { valueEntry := ve, dummyValue := d, ops := ops0 }).ops := by
  intro tn
  induction tn with
  | nil =>
    intro t0 c0 ve d ops0 hnot
    exact ⟨rfl, rfl, rfl⟩
  | cons q rest ih =>
    intro t0 c0 ve d ops0 hnot
    rcases q with ⟨t1, vals⟩
    have ht1 : ¬ (t0 = t1) := by
      intro e
      exact hnot (by simp [e])
    have hrest : t0 ∉ rest.map (fun q => q.1) := by
      intro hm
      exact hnot (by simp; right; simpa using hm)
    cases hl : alookup entry t1 with
    | none =>
      simp only [values_for_subject, hl]
      exact ih t0 c0 ve d ops0 hrest
    | some tagId =>
      simp only [values_for_subject, hl]
      have hlv : alookup ((t0, c0) :: ve) t1 = alookup ve t1 := by
        simp [alookup, ht1]
      have hins : ∀ rc : List (String × Int),
          ainsert ((t0, c0) :: ve) t1 rc = (t0, c0) :: ainsert ve t1 rc := by
        intro rc
        simp [ainsert, ht1]
      rw [hlv, hins]
      exact ih t0 c0 _ _ _ hrest

theorem values_for_subject_dry (oracle : LiveOracle)
    (entry : List (String × Int)) :
    ∀ (ve : List (String × List (String × Int)))
      (tn : List (String × List String)) (d : Int) (ops0 : List Op),
      d < 0 →
      (tn.map (fun q => q.1)).Sublist (ve.map (fun q => q.1)) →
      (∀ q ∈ tn, q.2.Nodup) →
      (∀ q ∈ ve, q.2 = []) →
      (ve.map (fun q => q.1)).Nodup →
      ∃ k : Nat,
        entryValueIds (values_for_subject true oracle entry tn
          { valueEntry := ve, dummyValue := d, ops := ops0 }).valueEntry =
          descList d k ∧
        (values_for_subject true oracle entry tn
          { valueEntry := ve, dummyValue := d, ops := ops0 }).dummyValue =
          d - k ∧
        (values_for_subject true oracle entry tn
          { valueEntry := ve, dummyValue := d, ops := ops0 }).ops = ops0 := by
  intro ve
  induction ve with
  | nil =>
    intro tn d ops0 hd hsub hnd hall hkeys
    have htn : tn = [] := by
      have := List.sublist_nil.mp (by simpa using hsub)
      simpa using this
    subst htn
    exact ⟨0, by simp [values_for_subject, entryValueIds, descList], by
      simp [values_for_subject, descList], rfl⟩
  | cons p ve1 ih =>
    intro tn d ops0 hd hsub hnd hall hkeys
    rcases p with ⟨t0, c0⟩
    have hc0 : c0 = [] := hall (t0, c0) (List.mem_cons_self _ _)
    subst hc0
    have hall1 : ∀ q ∈ ve1, q.2 = [] :=
      fun q hq => hall q (List.mem_cons_of_mem _ hq)
    have hkeys1 : (ve1.map (fun q => q.1)).Nodup := by
      simpa using List.Nodup.of_cons (by simpa using hkeys)
    have ht0notve1 : t0 ∉ ve1.map (fun q => q.1) := by
      have h2 : (t0 :: ve1.map (fun q => q.1)).Nodup := by simpa using hkeys
      exact (List.nodup_cons.mp h2).1
    cases tn with
    | nil =>
      refine ⟨0, ?_, by simp [values_for_subject, descList], rfl⟩
      simp only [values_for_subject]
      rw [entryValueIds_of_all_nil _ hall]
      rfl
    | cons q tn1 =>
      rcases q with ⟨t1, vals⟩
      have hnd1 : ∀ q ∈ tn1, q.2.Nodup :=
        fun q hq => hnd q (List.mem_cons_of_mem _ hq)
      by_cases ht : t1 = t0
      · subst ht
        have ht1tn1 : t1 ∉ tn1.map (fun q => q.1) := by
          have hndk : ((t1, vals) :: tn1).map (fun q => q.1) =
            t1 :: tn1.map (fun q => q.1) := by simp
          have := List.Sublist.nodup (hndk ▸ hsub) (by simpa using hkeys)
          exact (List.nodup_cons.mp this).1
        have hsub1 : (tn1.map (fun q => q.1)).Sublist
            (ve1.map (fun q => q.1)) := by
          have h2 : (t1 :: tn1.map (fun q => q.1)).Sublist
              (t1 :: ve1.map (fun q => q.1)) := by simpa using hsub
          exact (List.cons_sublist_cons).mp h2
        cases hl : alookup entry t1 with
        | none =>
          simp only [values_for_subject, hl]
          have hskip := values_for_subject_cons_skip oracle entry tn1 t1 []
            ve1 d ops0 ht1tn1
          rcases ih tn1 d ops0 hd hsub1 hnd1 hall1 hkeys1 with
            ⟨k, hk1, hk2, hk3⟩
          refine ⟨k, ?_, ?_, ?_⟩
          · rw [hskip.1, entryValueIds_cons]
            simpa using hk1
          · rw [hskip.2.1]
            exact hk2
          · rw [hskip.2.2]
            exact hk3
        | some tagId =>
          simp only [values_for_subject, hl]
          have hcur : (alookup ((t1, ([] : List (String × Int))) :: ve1)
              t1).getD [] = [] := by
            simp [alookup]
          rw [hcur]
          have hvt := values_for_tag_dry oracle tagId vals [] d []
            hd (hnd (t1, vals) (List.mem_cons_self _ _))
            (by intro v hv; simp)
          rw [hvt]
          have hins : ainsert ((t1, ([] : List (String × Int))) :: ve1) t1
              ([] ++ vals.zip (descList d vals.length)) =
              (t1, [] ++ vals.zip (descList d vals.length)) :: ve1 := by
            simp [ainsert]
          rw [hins]
          dsimp only
          simp only [List.append_nil]
          have hskip := values_for_subject_cons_skip oracle entry tn1 t1
            ([] ++ vals.zip (descList d vals.length)) ve1
            (d - vals.length) ops0 ht1tn1
          rcases ih tn1 (d - vals.length) ops0 (by omega) hsub1
            hnd1 hall1 hkeys1 with ⟨k, hk1, hk2, hk3⟩
          refine ⟨vals.length + k, ?_, ?_, ?_⟩
          · rw [hskip.1, entryValueIds_cons]
            rw [hk1]
            simp only [List.nil_append]
            rw [map_snd_zip_descList]
            exact descList_append d vals.length k
          · rw [hskip.2.1, hk2]
            push_cast
            omega
          · rw [hskip.2.2, hk3]
      · have hsub2 : (((t1, vals) :: tn1).map (fun q => q.1)).Sublist
            (ve1.map (fun q => q.1)) := by
          have hx : (t1 :: tn1.map (fun q => q.1)).Sublist
              (t0 :: ve1.map (fun q => q.1)) := by simpa using hsub
          cases hx with
          | cons _ h2 => exact (by simpa using h2)
          | cons₂ _ h2 => exact absurd rfl ht
        have ht0tn : t0 ∉ ((t1, vals) :: tn1).map (fun q => q.1) := by
          intro hm
          exact ht0notve1 (List.Sublist.subset hsub2 hm)
        have hskip := values_for_subject_cons_skip oracle entry
          ((t1, vals) :: tn1) t0 [] ve1 d ops0 ht0tn
        rcases ih ((t1, vals) :: tn1) d ops0 hd hsub2 hnd hall1 hkeys1 with
          ⟨k, hk1, hk2, hk3⟩
        refine ⟨k, ?_, ?_, ?_⟩
        · rw [hskip.1, entryValueIds_cons]
          simpa using hk1
        · rw [hskip.2.1]
          exact hk2
        · rw [hskip.2.2]
          exact hk3

theorem tags_for_subject_dry (oracle : LiveOracle) (v : Int) (d : Int)
    (ops0 : List Op) :
    tags_for_subject true oracle v enumerated_default_tags
      { entry := [], valueEntry := [], dummyTag := d, ops := ops0 } =
      { entry := [("paper", d), ("season", d - 1), ("year", d - 1 - 1),
          ("time zone", d - 1 - 1 - 1)]
        valueEntry := [("paper", []), ("season", []), ("year", []),
          ("time zone", [])]
        dummyTag := d - 1 - 1 - 1 - 1
        ops := ops0 } := rfl

theorem tagCacheIds_append_entry (tc : List (Int × List (String × Int)))
    (v : Int) (entry : List (String × Int)) :
    tagCacheIds (tc ++ [(v, entry)]) =
      tagCacheIds tc ++ entry.map (fun q => q.2) := by
  simp [tagCacheIds]

theorem valueCacheIds_append_entry
    (tvc : List (Int × List (String × List (String × Int)))) (v : Int)
    (ve : List (String × List (String × Int))) :
    valueCacheIds (tvc ++ [(v, ve)]) =
      valueCacheIds tvc ++ entryValueIds ve := by
  simp [valueCacheIds]

theorem processedSubjNews_cons_skip (subjMap : List (String × Option Int))
    (p : String × List (String × List String))
    (rest : List (String × List (String × List String)))
    (h : (alookup subjMap p.1).getD none = none) :
    processedSubjNews subjMap (p :: rest) = processedSubjNews subjMap rest := by
  simp [processedSubjNews, h]

theorem processedSubjNews_cons_zero (subjMap : List (String × Option Int))
    (p : String × List (String × List String))
    (rest : List (String × List (String × List String)))
    (h : (alookup subjMap p.1).getD none = some 0) :
    processedSubjNews subjMap (p :: rest) = processedSubjNews subjMap rest := by
  simp [processedSubjNews, h]

theorem processedSubjNews_cons_some (subjMap : List (String × Option Int))
    (p : String × List (String × List String))
    (rest : List (String × List (String × List String))) (v : Int)
    (h : (alookup subjMap p.1).getD none = some v) (hv : v ≠ 0) :
    processedSubjNews subjMap (p :: rest) =
      v :: processedSubjNews subjMap rest := by
  simp [processedSubjNews, h, hv]

theorem tags_phase_dry (oracle : LiveOracle)
    (subjMap : List (String × Option Int)) :
    ∀ (rtv : List (String × List (String × List String))) (st : TagPhase),
      st.dummyTag < 0 → st.dummyValue < 0 →
      (processedSubjNews subjMap rtv).Nodup →
      (∀ v ∈ processedSubjNews subjMap rtv,
        v ∉ st.tagCache.map (fun q => q.1) ∧
        v ∉ st.tagValueCache.map (fun q => q.1)) →
      (∀ p ∈ rtv, (p.2.map (fun q => q.1)).Sublist default_tags ∧
        ∀ q ∈ p.2, q.2.Nodup) →
      ∃ k m : Nat,
        tagCacheIds (tags_phase true oracle subjMap rtv st).tagCache =
          tagCacheIds st.tagCache ++ descList st.dummyTag k ∧
        valueCacheIds (tags_phase true oracle subjMap rtv st).tagValueCache =
          valueCacheIds st.tagValueCache ++ descList st.dummyValue m ∧
        (tags_phase true oracle subjMap rtv st).dummyTag =
          st.dummyTag - k ∧
        (tags_phase true oracle subjMap rtv st).dummyValue =
          st.dummyValue - m := by
  intro rtv
  induction rtv with
  | nil =>
    intro st h1 h2 h3 h4 h5
    exact ⟨0, 0, by simp [tags_phase, descList], by
      simp [tags_phase, descList], by simp [tags_phase],
      by simp [tags_phase]⟩
  | cons p rest ih =>
    intro st hdt hdv hnd hfresh hstruct
    have hstep : tags_phase true oracle subjMap (p :: rest) st =
        tags_phase true oracle subjMap rest
          (tags_phase_step true oracle subjMap st p) := by
      rw [tags_phase, List.foldl_cons, tags_phase]
    rw [hstep]
    cases hsm : (alookup subjMap p.1).getD none with
    | none =>
      have hstep2 : tags_phase_step true oracle subjMap st p = st := by
        unfold tags_phase_step
        rw [hsm]
      rw [hstep2]
      have hpn := processedSubjNews_cons_skip subjMap p rest hsm
      exact ih st hdt hdv (by rw [hpn] at hnd; exact hnd)
        (by rw [hpn] at hfresh; exact hfresh)
        (fun q hq => hstruct q (List.mem_cons_of_mem _ hq))
    | some v =>
      by_cases h0 : v = 0
      · subst h0
        have hstep2 : tags_phase_step true oracle subjMap st p = st := by
          unfold tags_phase_step
          rw [hsm]
          simp
        rw [hstep2]
        have hpn := processedSubjNews_cons_zero subjMap p rest hsm
        exact ih st hdt hdv (by rw [hpn] at hnd; exact hnd)
          (by rw [hpn] at hfresh; exact hfresh)
          (fun q hq => hstruct q (List.mem_cons_of_mem _ hq))
      · have hpn := processedSubjNews_cons_some subjMap p rest v hsm h0
        have hvmem : v ∈ processedSubjNews subjMap (p :: rest) := by
          rw [hpn]
          exact List.mem_cons_self _ _
        have hvfresh := hfresh v hvmem
        have hndtail : (processedSubjNews subjMap rest).Nodup := by
          rw [hpn] at hnd
          exact (List.nodup_cons.mp hnd).2
        have hvnotrest : v ∉ processedSubjNews subjMap rest := by
          rw [hpn] at hnd
          exact (List.nodup_cons.mp hnd).1
        rcases values_for_subject_dry oracle
          [("paper", st.dummyTag), ("season", st.dummyTag - 1),
            ("year", st.dummyTag - 1 - 1),
            ("time zone", st.dummyTag - 1 - 1 - 1)]
          [("paper", []), ("season", []), ("year", []), ("time zone", [])]
          p.2 st.dummyValue [] hdv
          (by
            have := (hstruct p (List.mem_cons_self _ _)).1
            simpa [default_tags] using this)
          (fun q hq => (hstruct p (List.mem_cons_self _ _)).2 q hq)
          (by intro q hq; fin_cases hq <;> rfl)
          (by decide) with ⟨m1, hm1, hm2, hm3⟩
        have hstep2 : tags_phase_step true oracle subjMap st p =
            { tagCache := st.tagCache ++
                [(v, [("paper", st.dummyTag), ("season", st.dummyTag - 1),
                  ("year", st.dummyTag - 1 - 1),
                  ("time zone", st.dummyTag - 1 - 1 - 1)])]
              tagValueCache := st.tagValueCache ++
                [(v, (values_for_subject true oracle
                  [("paper", st.dummyTag), ("season", st.dummyTag - 1),
                    ("year", st.dummyTag - 1 - 1),
                    ("time zone", st.dummyTag - 1 - 1 - 1)]
                  p.2
                  { valueEntry := [("paper", []), ("season", []),
                      ("year", []), ("time zone", [])]
                    dummyValue := st.dummyValue, ops := [] }).valueEntry)]
              dummyTag := st.dummyTag - 1 - 1 - 1 - 1
              dummyValue := st.dummyValue - m1
              ops := st.ops } := by
          unfold tags_phase_step
          rw [hsm]
          simp only [h0, if_false]
          rw [tags_for_subject_dry]
          dsimp only
          rw [hm2, hm3]
          rw [ainsert_append_of_not_mem _ _ _ hvfresh.1]
          rw [ainsert_append_of_not_mem _ _ _ hvfresh.2]
          simp
        rw [hstep2]
        have hfresh1 : ∀ w ∈ processedSubjNews subjMap rest,
            w ∉ (st.tagCache ++
              [(v, [("paper", st.dummyTag), ("season", st.dummyTag - 1),
                ("year", st.dummyTag - 1 - 1),
                ("time zone", st.dummyTag - 1 - 1 - 1)])]).map
                (fun q => q.1) ∧
            w ∉ (st.tagValueCache ++
              [(v, (values_for_subject true oracle
                [("paper", st.dummyTag), ("season", st.dummyTag - 1),
                  ("year", st.dummyTag - 1 - 1),
                  ("time zone", st.dummyTag - 1 - 1 - 1)]
                p.2
                { valueEntry := [("paper", []), ("season", []),
                    ("year", []), ("time zone", [])]
                  dummyValue := st.dummyValue
                  ops := [] }).valueEntry)]).map (fun q => q.1) := by
          intro w hw
          have hworig := hfresh w (by rw [hpn]; exact List.mem_cons_of_mem _ hw)
          have hwv : w ≠ v := by
            intro e
            exact hvnotrest (e ▸ hw)
          constructor
          · simp only [List.map_append, List.mem_append]
            push_neg
            exact ⟨hworig.1, by simp [hwv]⟩
          · simp only [List.map_append, List.mem_append]
            push_neg
            exact ⟨hworig.2, by simp [hwv]⟩
        rcases ih
          { tagCache := st.tagCache ++
              [(v, [("paper", st.dummyTag), ("season", st.dummyTag - 1),
                ("year", st.dummyTag - 1 - 1),
                ("time zone", st.dummyTag - 1 - 1 - 1)])]
            tagValueCache := st.tagValueCache ++
              [(v, (values_for_subject true oracle
                [("paper", st.dummyTag), ("season", st.dummyTag - 1),
                  ("year", st.dummyTag - 1 - 1),
                  ("time zone", st.dummyTag - 1 - 1 - 1)]
                p.2
                { valueEntry := [("paper", []), ("season", []),
                    ("year", []), ("time zone", [])]
                  dummyValue := st.dummyValue, ops := [] }).valueEntry)]
            dummyTag := st.dummyTag - 1 - 1 - 1 - 1
            dummyValue := st.dummyValue - m1
            ops := st.ops }
          (by dsimp only; omega) (by dsimp only; omega) hndtail hfresh1
          (fun q hq => hstruct q (List.mem_cons_of_mem _ hq)) with
          ⟨k2, m2, hk2a, hk2b, hk2c, hk2d⟩
        dsimp only at hk2a hk2b hk2c hk2d
        refine ⟨4 + k2, m1 + m2, ?_, ?_, ?_, ?_⟩
        · rw [hk2a, tagCacheIds_append_entry]
          have h44 : st.dummyTag - 1 - 1 - 1 - 1 =
              st.dummyTag - ((4 : Nat) : Int) := by
            push_cast
            omega
          rw [List.append_assoc, h44]
          have h4 : (List.map (fun q => q.2)
              [("paper", st.dummyTag), ("season", st.dummyTag - 1),
                ("year", st.dummyTag - 1 - 1),
                ("time zone", st.dummyTag - 1 - 1 - 1)]) =
              descList st.dummyTag 4 := by
            simp [descList]
          rw [h4, descList_append]
        · rw [hk2b, valueCacheIds_append_entry, hm1]
          have hm1c : st.dummyValue - m1 =
              st.dummyValue - ((m1 : Nat) : Int) := rfl
          rw [List.append_assoc, descList_append]
        · rw [hk2c]
          push_cast
          omega
        · rw [hk2d]
          push_cast
          omega

theorem upsert_subjects_dry_map_aux (oracle : LiveOracle)
    (exams : List (String × LegacyExam))
    (rtv : List (String × List (String × List String)))
    (ebMap : List (String × Option Int)) :
    ∀ (subjects : List (String × LegacySubject)) (sp : SubjPhase),
      (subjects.map (fun p => p.1)).Nodup →
      (∀ p ∈ subjects, p.1 ∉ sp.map.map (fun q => q.1)) →
      ∃ k : Nat,
        (subjects.foldl
          (fun sp p =>
            if (alookup rtv p.1).isNone then sp
            else
              let examName : Option String :=
                match alookup exams p.2.exam_id with
                | some e => some e.name
                | none => none
              let ebId : Option Int :=
                match examName with
                | some en =>
                  if en = "" then none else (alookup ebMap en).getD none
                | none => none
              if !true then
                let r := ensure_subject oracle p.2.name ebId false
                { sp with map := ainsert sp.map p.1 r.1, ops := sp.ops ++ r.2 }
              else
                { map := ainsert sp.map p.1 (some sp.dummy)
                  dummy := sp.dummy - 1
                  ops := sp.ops }) sp).map.map (fun q => q.2) =
          sp.map.map (fun q => q.2) ++ (descList sp.dummy k).map some ∧
        (subjects.foldl
          (fun sp p =>
            if (alookup rtv p.1).isNone then sp
            else
              let examName : Option String :=
                match alookup exams p.2.exam_id with
                | some e => some e.name
                | none => none
              let ebId : Option Int :=
                match examName with
                | some en =>
                  if en = "" then none else (alookup ebMap en).getD none
                | none => none
              if !true then
                let r := ensure_subject oracle p.2.name ebId false
                { sp with map := ainsert sp.map p.1 r.1, ops := sp.ops ++ r.2 }
              else
                { map := ainsert sp.map p.1 (some sp.dummy)
                  dummy := sp.dummy - 1
                  ops := sp.ops }) sp).dummy = sp.dummy - k ∧
        (subjects.foldl
          (fun sp p =>
            if (alookup rtv p.1).isNone then sp
            else
              let examName : Option String :=
                match alookup exams p.2.exam_id with
                | some e => some e.name
                | none => none
              let ebId : Option Int :=
                match examName with
                | some en =>
                  if en = "" then none else (alookup ebMap en).getD none
                | none => none
              if !true then
                let r := ensure_subject oracle p.2.name ebId false
                { sp with map := ainsert sp.map p.1 r.1, ops := sp.ops ++ r.2 }
              else
                { map := ainsert sp.map p.1 (some sp.dummy)
                  dummy := sp.dummy - 1
                  ops := sp.ops }) sp).ops = sp.ops := by
  intro subjects
  induction subjects with
  | nil =>
    intro sp hnd hfresh
    exact ⟨0, by simp [descList], by simp, rfl⟩
  | cons p rest ih =>
    intro sp hnd hfresh
    have hnd2 : (p.1 :: rest.map (fun q => q.1)).Nodup := by
      simpa using hnd
    have hndc : p.1 ∉ rest.map (fun q => q.1) ∧
        (rest.map (fun q => q.1)).Nodup := List.nodup_cons.mp hnd2
    have hp1 : p.1 ∉ sp.map.map (fun q => q.1) :=
      hfresh p (List.mem_cons_self _ _)
    generalize hg : (fun (sp : SubjPhase) (p : String × LegacySubject) =>
      if (alookup rtv p.1).isNone then sp
      else
        let examName : Option String :=
          match alookup exams p.2.exam_id with
          | some e => some e.name
          | none => none
        let ebId : Option Int :=
          match examName with
          | some en =>
            if en = "" then none else (alookup ebMap en).getD none
          | none => none
        if !true then
          let r := ensure_subject oracle p.2.name ebId false
          { sp with map := ainsert sp.map p.1 r.1, ops := sp.ops ++ r.2 }
        else
          { map := ainsert sp.map p.1 (some sp.dummy)
            dummy := sp.dummy - 1
            ops := sp.ops }) = g
    rw [List.foldl_cons]
    by_cases hreq : (alookup rtv p.1).isNone
    · have hacc : g sp p = sp := by
        rw [← hg]
        dsimp only
        rw [if_pos hreq]
      rw [hacc]
      have hih := ih sp (by simpa using (List.nodup_cons.mp hnd2).2)
        (fun q hq => hfresh q (List.mem_cons_of_mem _ hq))
      rw [hg] at hih
      exact hih
    · have hacc : g sp p =
          (⟨ainsert sp.map p.1 (some sp.dummy), sp.dummy - 1, sp.ops⟩ :
            SubjPhase) := by
        rw [← hg]
        dsimp only
        rw [if_neg hreq]
        rfl
      rw [hacc]
      have hih := ih
        (⟨sp.map ++ [(p.1, some sp.dummy)], sp.dummy - 1, sp.ops⟩ : SubjPhase)
        hndc.2
        (by
          intro q hq
          dsimp only
          simp only [List.map_append, List.mem_append]
          push_neg
          refine ⟨hfresh q (List.mem_cons_of_mem _ hq), ?_⟩
          simp only [List.map_cons, List.map_nil, List.mem_singleton]
          intro e
          exact hndc.1 (e ▸ List.mem_map_of_mem (fun q => q.1) hq))
      rw [hg] at hih
      rcases hih with ⟨k, hk1, hk2, hk3⟩
      dsimp only at hk1 hk2 hk3
      refine ⟨k + 1, ?_, ?_, ?_⟩
      · rw [ainsert_append_of_not_mem _ _ _ hp1, hk1]
        simp [descList, List.map_append, List.append_assoc]
      · rw [ainsert_append_of_not_mem _ _ _ hp1, hk2]
        push_cast
        omega
      · rw [ainsert_append_of_not_mem _ _ _ hp1, hk3]

theorem upsert_subjects_dry_map (oracle : LiveOracle)
    (subjects : List (String × LegacySubject))
    (exams : List (String × LegacyExam))
    (rtv : List (String × List (String × List String)))
    (ebMap : List (String × Option Int))
    (hnd : (subjects.map (fun p => p.1)).Nodup) :
    ∃ k : Nat,
      (upsert_subjects true oracle subjects exams rtv ebMap).map.map
        (fun q => q.2) = (descList (-1) k).map some ∧
      (upsert_subjects true oracle subjects exams rtv ebMap).dummy =
        -1 - k ∧
      (upsert_subjects true oracle subjects exams rtv ebMap).ops = [] := by
  unfold upsert_subjects
  rcases upsert_subjects_dry_map_aux oracle exams rtv ebMap subjects
    { map := [], dummy := -1, ops := [] } hnd (by simp) with ⟨k, h1, h2, h3⟩
  exact ⟨k, by simpa using h1, h2, h3⟩

/-- C9: counterexample to the claim as stated. The claim says every entity
gets a locally-generated strictly decreasing negative placeholder id in
dry-run mode, but the exam-board loop (line 272) stores `None` in
`exam_name_to_id` for every required exam board instead of a negative
placeholder: after a dry run over the single name `"IGCSE"` the map holds
`None`, not a negative id. -/
theorem C9_placeholder_counterexample :
    (upsert_exam_boards true fxOracle ["IGCSE"]).1 = [("IGCSE", none)] ∧
    alookup (upsert_exam_boards true fxOracle ["IGCSE"]).1 "IGCSE" =
      some none := by
  decide

/-- C9 (amended): in dry-run mode every `ensure_*` helper performs no
remote operation and returns no id; the subject, tag and tag-value loops
substitute locally-generated strictly decreasing negative placeholder ids
(each kind counting down from `-1`), which are therefore all negative and
never equal a non-negative real id; the exam-board loop, however, records
`None` rather than a placeholder. -/
theorem C9_placeholder_invariant_amended (oracle : LiveOracle)
    (names : List String)
    (subjects : List (String × LegacySubject))
    (exams : List (String × LegacyExam))
    (rtv : List (String × List (String × List String)))
    (ebMap : List (String × Option Int))
    (subjMap : List (String × Option Int))
    (hnds : (subjects.map (fun p => p.1)).Nodup)
    (hndp : (processedSubjNews subjMap rtv).Nodup)
    (hstruct : ∀ p ∈ rtv, (p.2.map (fun q => q.1)).Sublist default_tags ∧
      ∀ q ∈ p.2, q.2.Nodup) :
    (∀ n, ensure_exam_board oracle n true = (none, [])) ∧
    (∀ n ebid, ensure_subject oracle n ebid true = (none, [])) ∧
    (∀ sid n pos, ensure_tag oracle sid n pos true = (none, [])) ∧
    (∀ tid v, ensure_tag_value oracle tid v true = (none, [])) ∧
    ((upsert_exam_boards true oracle names).2 = [] ∧
      ∀ p ∈ (upsert_exam_boards true oracle names).1, p.2 = none) ∧
    (∃ k : Nat,
      (upsert_subjects true oracle subjects exams rtv ebMap).map.map
        (fun q => q.2) = (descList (-1) k).map some ∧
      (upsert_subjects true oracle subjects exams rtv ebMap).ops = [] ∧
      ∀ i ∈ descList (-1 : Int) k, i < 0) ∧
    (∃ k m : Nat,
      tagCacheIds
        (tags_phase true oracle subjMap rtv TagPhase.init).tagCache =
        descList (-1) k ∧
      valueCacheIds
        (tags_phase true oracle subjMap rtv TagPhase.init).tagValueCache =
        descList (-1) m ∧
      (tags_phase true oracle subjMap rtv TagPhase.init).ops = [] ∧
      (∀ i ∈ tagCacheIds
        (tags_phase true oracle subjMap rtv TagPhase.init).tagCache,
        i < 0) ∧
      (∀ i ∈ valueCacheIds
        (tags_phase true oracle subjMap rtv TagPhase.init).tagValueCache,
        i < 0)) := by
  refine ⟨fun n => rfl, fun n ebid => rfl, fun sid n pos => rfl,
    fun tid v => rfl, upsert_exam_boards_dry oracle names, ?_, ?_⟩
  · rcases upsert_subjects_dry_map oracle subjects exams rtv ebMap hnds with
      ⟨k, h1, h2, h3⟩
    exact ⟨k, h1, h3,
      fun i hi => neg_of_mem_descList (-1) k i (by omega) hi⟩
  · rcases tags_phase_dry oracle subjMap rtv TagPhase.init
      (by norm_num [TagPhase.init]) (by norm_num [TagPhase.init]) hndp
      (by simp [TagPhase.init]) hstruct with ⟨k, m, h1, h2, h3, h4⟩
    have h1c : tagCacheIds
        (tags_phase true oracle subjMap rtv TagPhase.init).tagCache =
        descList (-1) k := by
      rw [h1]
      simp [TagPhase.init, tagCacheIds]
    have h2c : valueCacheIds
        (tags_phase true oracle subjMap rtv TagPhase.init).tagValueCache =
        descList (-1) m := by
      rw [h2]
      simp [TagPhase.init, valueCacheIds]
    refine ⟨k, m, h1c, h2c,
      tags_phase_dry_ops oracle subjMap rtv TagPhase.init, ?_, ?_⟩
    · intro i hi
      rw [h1c] at hi
      exact neg_of_mem_descList (-1) k i (by omega) hi
    · intro i hi
      rw [h2c] at hi
      exact neg_of_mem_descList (-1) m i (by omega) hi

/-- Closed witness for C9 (amended): a dry run over one exam board, one
subject and one planned paper value, with the subject mapped to the
placeholder `-1`; the dry run emits no operations in any phase. -/
theorem C9_witness :
    (upsert_exam_boards true fxOracle ["IGCSE"]).2 = [] ∧
    (upsert_subjects true fxOracle fxSubjects fxExams
      [("s1", [("paper", ["1"])])] []).ops = [] ∧
    (tags_phase true fxOracle [("s1", some (-1))]
      [("s1", [("paper", ["1"])])] TagPhase.init).ops = [] := by
  have h := C9_placeholder_invariant_amended fxOracle ["IGCSE"] fxSubjects
    fxExams [("s1", [("paper", ["1"])])] [] [("s1", some (-1))]
    (by decide) (by decide) (by decide)
  refine ⟨h.2.2.2.2.1.1, ?_, ?_⟩
  · rcases h.2.2.2.2.2.1 with ⟨k, hmap, hops, hneg⟩
    exact hops
  · rcases h.2.2.2.2.2.2 with ⟨k, m, ha, hb, hops, hc, hd⟩
    exact hops
